import Mathlib

/-!
Shallow embedding of the dental-voice-ai conversational core: the booking
flow state machine (src/backend/app/ai_processing/booking_flow_manager.py)
and the intent / FAQ engine
(src/backend/app/ai_processing/dental_faq_matcher.py), together with
theorems settling the specification claims about them.

Modeling conventions: Python `str` is Lean `String`; `Optional[str]` is
`Option String`; `datetime.utcnow()` is an abstract `Nat` clock value
threaded as an explicit `now` parameter; float scores are exact rationals;
dictionaries are association lists in insertion order; code that can raise
returns `Except`.
-/

/-- The apostrophe character, written via its code point. -/
def apoC : Char := Char.ofNat 39

/-- The apostrophe as a one-character string, used to build the source's
string literals. -/
def apo : String := String.mk [apoC]

/-- Contiguous sublist containment on char lists. -/
def listInfix (needle : List Char) : List Char → Bool
  | [] => needle.isEmpty
  | c :: t => needle.isPrefixOf (c :: t) || listInfix needle t

/-- Python `needle in hay` on strings: contiguous-substring containment. -/
def strContains (hay needle : String) : Bool :=
  listInfix needle.toList hay.toList

/-- Python `str.lower()` (ASCII case folding, all inputs here are ASCII). -/
def pyLower (s : String) : String := String.mk (s.toList.map Char.toLower)

/-- Python `str.strip()`: drop leading and trailing whitespace.  Implemented
on the char list so that it reduces inside the kernel. -/
def pyStrip (s : String) : String :=
  String.mk (((s.toList.dropWhile Char.isWhitespace).reverse.dropWhile
    Char.isWhitespace).reverse)

/-- Python truthiness of an `Optional[str]` value: `None` and `""` are falsy. -/
def optTruthy : Option String → Bool
  | none => false
  | some s => s != ""

/-! ## Booking flow manager (booking_flow_manager.py) -/

/-- Steps in the booking flow (`BookingStep`). -/
inductive BookingStep where
  | initial_intent
  | gather_name
  | gather_phone
  | gather_service
  | confirm_details
  | check_availability
  | select_slot
  | final_confirmation
  | completed
deriving DecidableEq, Repr

/-- The `.value` string of each step. -/
def BookingStep.value : BookingStep → String
  | .initial_intent => "initial_intent"
  | .gather_name => "gather_name"
  | .gather_phone => "gather_phone"
  | .gather_service => "gather_service"
  | .confirm_details => "confirm_details"
  | .check_availability => "check_availability"
  | .select_slot => "select_slot"
  | .final_confirmation => "final_confirmation"
  | .completed => "completed"

/-- Position of each step in the declared forward order. -/
def BookingStep.idx : BookingStep → Nat
  | .initial_intent => 0
  | .gather_name => 1
  | .gather_phone => 2
  | .gather_service => 3
  | .confirm_details => 4
  | .check_availability => 5
  | .select_slot => 6
  | .final_confirmation => 7
  | .completed => 8

/-- An active booking session (`BookingSession` dataclass). -/
structure BookingSession where
  session_id : String
  call_id : String
  current_step : BookingStep
  customer_name : Option String := none
  customer_phone : Option String := none
  service_type : Option String := none
  urgency : String := "normal"
  preferred_date : Option String := none
  preferred_time : Option String := none
  selected_slot : Option (List (String × String)) := none
  created_at : Nat := 0
  updated_at : Nat := 0
deriving DecidableEq, Repr

/-- The dictionary returned by `get_next_question`; absent keys are `none`. -/
structure Reply where
  question : Option String := none
  error : Option String := none
  step : Option String := none
  session_id : Option String := none
  requires_response : Option Bool := none
  step_description : Option String := none
  next_action : Option String := none
  confirmation_data : Option (Option String × Option String × Option String) := none
deriving DecidableEq, Repr

/-- Python exceptions that the embedded code can raise. -/
inductive PyError where
  | attributeError
deriving DecidableEq, Repr

/-- `_clean_phone_number`: drop every non-digit character; with exactly 10
digits format `(AAA) BBB-CCCC`; with 11 digits led by `1` the source takes
the slices `digits[1:4]`, `digits[3:6]`, `digits[6:]` (embedded verbatim);
otherwise return the trimmed input. -/
def clean_phone_number (phone : String) : String :=
  let d : List Char := phone.toList.filter Char.isDigit
  if d.length = 10 then
    "(" ++ String.mk (d.take 3) ++ ") " ++ String.mk ((d.drop 3).take 3) ++
      "-" ++ String.mk (d.drop 6)
  else if d.length = 11 ∧ d.head? = some '1' then
    "(" ++ String.mk ((d.drop 1).take 3) ++ ") " ++ String.mk ((d.drop 3).take 3) ++
      "-" ++ String.mk (d.drop 6)
  else
    pyStrip phone

/-- The `service_mapping` dictionary, in insertion order. -/
def service_mapping : List (String × List String) :=
  [("cleaning", ["cleaning", "hygiene", "prophylaxis", "routine cleaning"]),
   ("checkup", ["checkup", "exam", "consultation", "inspection", "evaluation"]),
   ("emergency", ["emergency", "urgent", "pain", "broken", "lost"]),
   ("filling", ["filling", "cavity", "decay", "hole in tooth"]),
   ("crown", ["crown", "cap", "restoration", "dental crown"]),
   ("root_canal", ["root canal", "endodontic", "nerve treatment"]),
   ("extraction", ["extraction", "pull tooth", "remove tooth", "take out"]),
   ("whitening", ["whitening", "bleaching", "teeth whitening", "brighten"]),
   ("braces", ["braces", "orthodontic", "straighten teeth", "alignment"]),
   ("implant", ["implant", "dental implant", "replacement tooth"])]

/-- `_normalize_service_type`: first category (in declared order) with a
synonym occurring in the lowercased text, else the trimmed input. -/
def normalize_service_type (service : String) : String :=
  let lower := pyLower service
  match service_mapping.find? (fun p => p.2.any (fun v => strContains lower v)) with
  | some p => p.1
  | none => pyStrip service

/-- The `positive_words` list of `_is_confirmation_positive`. -/
def positive_words : List String :=
  ["yes", "yeah", "yep", "correct", "right", "that" ++ apo ++ "s right", "sounds good"]

/-- `_is_confirmation_positive` applied to a present (non-None) response. -/
def is_confirmation_positive (response : String) : Bool :=
  positive_words.any (fun w => strContains (pyLower response) w)

/-- Python `f"{x}"` for an `Optional[str]`: `None` prints as `"None"`. -/
def pyStr : Option String → String
  | none => "None"
  | some s => s

/-- `_generate_confirmation_question`. -/
def generate_confirmation_question (s : BookingSession) : String :=
  "Let me confirm your details:\n" ++
  "• Name: " ++ pyStr s.customer_name ++ "\n" ++
  "• Phone: " ++ pyStr s.customer_phone ++ "\n" ++
  "• Service: " ++ pyStr s.service_type ++ "\n\n" ++
  "Is this correct? Please say " ++ apo ++ "yes" ++ apo ++ " to confirm or " ++
  apo ++ "no" ++ apo ++ " if you need to change anything."

/-- `_update_session_with_response`: write the field that belongs to the
current step, then refresh `updated_at`. -/
def update_session_with_response (s : BookingSession) (response : String) (now : Nat) :
    BookingSession :=
  match s.current_step with
  | .gather_name => { s with customer_name := some (pyStrip response), updated_at := now }
  | .gather_phone => { s with customer_phone := some (clean_phone_number response), updated_at := now }
  | .gather_service => { s with service_type := some (normalize_service_type response), updated_at := now }
  | _ => { s with updated_at := now }

/-- `_handle_confirmation_changes`: route a non-positive confirmation
utterance back to the step it names ("name" first, then "phone"/"number",
then "service"/"appointment"), or re-ask. -/
def handle_confirmation_changes (s : BookingSession) (response : String) :
    Reply × BookingSession :=
  let lower := pyLower response
  if strContains lower "name" then
    let s' := { s with current_step := BookingStep.gather_name }
    ({ question := some "What would you like to change your name to?",
       step := some s'.current_step.value,
       session_id := some s.session_id,
       requires_response := some true,
       step_description := some "Updating customer name" }, s')
  else if strContains lower "phone" || strContains lower "number" then
    let s' := { s with current_step := BookingStep.gather_phone }
    ({ question := some ("What" ++ apo ++ "s the correct phone number?"),
       step := some s'.current_step.value,
       session_id := some s.session_id,
       requires_response := some true,
       step_description := some "Updating phone number" }, s')
  else if strContains lower "service" || strContains lower "appointment" then
    let s' := { s with current_step := BookingStep.gather_service }
    ({ question := some "What type of appointment do you need?",
       step := some s'.current_step.value,
       session_id := some s.session_id,
       requires_response := some true,
       step_description := some "Updating service type" }, s')
  else
    ({ question := some ("I" ++ apo ++ "m not sure what you" ++ apo ++
         "d like to change. Could you please specify: name, phone, or service?"),
       step := some s.current_step.value,
       session_id := some s.session_id,
       requires_response := some true,
       step_description := some "Clarifying changes" }, s)

/-- The first phase of `get_next_question`'s body: update the session with
the user response when that response is truthy. -/
def updatedSession (s0 : BookingSession) (user_response : Option String) (now : Nat) :
    BookingSession :=
  match user_response with
  | some r => if r ≠ "" then update_session_with_response s0 r now else s0
  | none => s0

/-- The second phase of `get_next_question`'s body: dispatch on the current
step.  In the `confirm_details` step the source calls
`_is_confirmation_positive(user_response)`, which evaluates
`user_response.lower()`; an absent (`None`) response therefore raises
`AttributeError`, modeled as `Except.error`. -/
def gnq_dispatch (session_id : String) (s : BookingSession)
    (user_response : Option String) :
    Except PyError (Reply × BookingSession) :=
  match s.current_step with
  | .initial_intent =>
    let s' := { s with current_step := BookingStep.gather_name }
    .ok ({ question := some ("Great! I" ++ apo ++
             "d be happy to help you schedule an appointment. What" ++ apo ++
             "s your name?"),
           step := some s'.current_step.value,
           session_id := some session_id,
           requires_response := some true,
           step_description := some "Gathering customer name" }, s')
  | .gather_name =>
    if !(optTruthy s.customer_name) then
      .ok ({ question := some ("I didn" ++ apo ++
               "t catch your name. Could you please tell me your full name?"),
             step := some s.current_step.value,
             session_id := some session_id,
             requires_response := some true,
             step_description := some "Gathering customer name" }, s)
    else
      let s' := { s with current_step := BookingStep.gather_phone }
      .ok ({ question := some ("Thank you, " ++ pyStr s.customer_name ++ ". What" ++
               apo ++ "s the best phone number to reach you?"),
             step := some s'.current_step.value,
             session_id := some session_id,
             requires_response := some true,
             step_description := some "Gathering phone number" }, s')
  | .gather_phone =>
    if !(optTruthy s.customer_phone) then
      .ok ({ question := some ("I didn" ++ apo ++
               "t get your phone number. Could you please repeat it?"),
             step := some s.current_step.value,
             session_id := some session_id,
             requires_response := some true,
             step_description := some "Gathering phone number" }, s)
    else
      let s' := { s with current_step := BookingStep.gather_service }
      .ok ({ question := some ("What type of appointment do you need? " ++
               "For example: cleaning, checkup, consultation, or something specific?"),
             step := some s'.current_step.value,
             session_id := some session_id,
             requires_response := some true,
             step_description := some "Gathering service type" }, s')
  | .gather_service =>
    if !(optTruthy s.service_type) then
      .ok ({ question := some ("I didn" ++ apo ++
               "t catch what service you need. Could you please tell me again?"),
             step := some s.current_step.value,
             session_id := some session_id,
             requires_response := some true,
             step_description := some "Gathering service type" }, s)
    else
      let s' := { s with current_step := BookingStep.confirm_details }
      .ok ({ question := some (generate_confirmation_question s'),
             step := some s'.current_step.value,
             session_id := some session_id,
             requires_response := some true,
             step_description := some "Confirming details",
             confirmation_data := some (s.customer_name, s.customer_phone, s.service_type) },
           s')
  | .confirm_details =>
    match user_response with
    | none => .error PyError.attributeError
    | some r =>
      if is_confirmation_positive r then
        let s' := { s with current_step := BookingStep.check_availability }
        .ok ({ question := some "Perfect! Let me check our available appointment times...",
               step := some s'.current_step.value,
               session_id := some session_id,
               requires_response := some false,
               step_description := some "Checking availability",
               next_action := some "check_availability" }, s')
      else
        .ok (handle_confirmation_changes s r)
  | _ => .ok ({ error := some "Unknown step" }, s)

/-- Body of `get_next_question` once the session has been found: the update
phase followed by the step dispatch. -/
def get_next_question_session (session_id : String) (s0 : BookingSession)
    (user_response : Option String) (now : Nat) :
    Except PyError (Reply × BookingSession) :=
  gnq_dispatch session_id (updatedSession s0 user_response now) user_response

/-- The manager's `active_sessions` dictionary. -/
abbrev SessionStore := List (String × BookingSession)

/-- Replace the session stored under `sid` (in-place mutation of the
session object held by the dictionary). -/
def storeSet (store : SessionStore) (sid : String) (s : BookingSession) : SessionStore :=
  store.map (fun p => if p.1 = sid then (sid, s) else p)

/-- `get_next_question` at the manager level: unknown ids yield the
error-shaped reply; otherwise the session-level body runs. -/
def get_next_question (store : SessionStore) (session_id : String)
    (user_response : Option String) (now : Nat) :
    Except PyError (Reply × SessionStore) :=
  match store.lookup session_id with
  | none => .ok ({ error := some "Session not found" }, store)
  | some s =>
    match get_next_question_session session_id s user_response now with
    | .ok (r, s') => .ok (r, storeSet store session_id s')
    | .error e => .error e

/-! ## Regular expressions (the patterns used by dental_faq_matcher.py) -/

/-- Regular-expression syntax covering the source's patterns. -/
inductive RE where
  | eps : RE
  | cls : (Char → Bool) → RE
  | alt : RE → RE → RE
  | seq : RE → RE → RE
  | star : RE → RE

/-- A literal character, compared case-insensitively (`re.IGNORECASE` is
set on every search in the source). -/
def RE.lit (c : Char) : RE := RE.cls (fun d => d.toLower == c)

/-- A literal word. -/
def RE.str (s : String) : RE := (s.toList.map RE.lit).foldr RE.seq RE.eps

/-- `x?` (greedy: try the body first, as Python does). -/
def RE.opt (r : RE) : RE := RE.alt r RE.eps

/-- An alternation group, alternatives tried left to right. -/
def RE.alts : List RE → RE
  | [] => RE.cls (fun _ => false)
  | [r] => r
  | r :: rs => RE.alt r (RE.alts rs)

/-- Concatenation of a sequence of pieces. -/
def RE.cat : List RE → RE
  | [] => RE.eps
  | [r] => r
  | r :: rs => RE.seq r (RE.cat rs)

/-- The class `\s`. -/
def RE.ws : RE := RE.cls Char.isWhitespace

/-- `\s+`. -/
def RE.wsPlus : RE := RE.seq RE.ws (RE.star RE.ws)

/-- The class `\d`. -/
def RE.digit : RE := RE.cls Char.isDigit

/-- The regex matching nothing (used by derivatives). -/
def RE.fail : RE := RE.cls (fun _ => false)

def RE.nullable : RE → Bool
  | .eps => true
  | .cls _ => false
  | .alt r s => r.nullable || s.nullable
  | .seq r s => r.nullable && s.nullable
  | .star _ => true

/-- Brzozowski derivative. -/
def RE.deriv : RE → Char → RE
  | .eps, _ => RE.fail
  | .cls p, c => if p c then RE.eps else RE.fail
  | .alt r s, c => RE.alt (r.deriv c) (s.deriv c)
  | .seq r s, c =>
      if r.nullable then RE.alt (RE.seq (r.deriv c) s) (s.deriv c)
      else RE.seq (r.deriv c) s
  | .star r, c => RE.seq (r.deriv c) (RE.star r)

/-- Does some prefix of the list match `r`? -/
def RE.matchPre (r : RE) : List Char → Bool
  | [] => r.nullable
  | c :: cs => r.nullable || (r.deriv c).matchPre cs

/-- Python `re.search` as a Boolean: does any substring match? -/
def RE.search (r : RE) : List Char → Bool
  | [] => r.nullable
  | c :: cs => r.matchPre (c :: cs) || r.search cs

/-- Structural size, used as a termination measure. -/
def RE.size : RE → Nat
  | .eps => 1
  | .cls _ => 1
  | .alt r s => r.size + s.size + 1
  | .seq r s => r.size + s.size + 1
  | .star r => r.size + 1

/-- All lengths of prefixes of `l` matching `r`, in Python backtracking
priority order (alternatives left first, optional and star greedy). -/
def RE.allMatches : RE → List Char → List Nat
  | .eps, _ => [0]
  | .cls _, [] => []
  | .cls p, c :: _ => if p c then [1] else []
  | .alt r s, l => r.allMatches l ++ s.allMatches l
  | .seq r s, l => (r.allMatches l).flatMap (fun n => (s.allMatches (l.drop n)).map (n + ·))
  | .star r, l =>
      ((((r.allMatches l).filter (fun n => decide (0 < n) && decide (n ≤ l.length))).attach.flatMap
        (fun x => ((RE.star r).allMatches (l.drop x.1)).map (x.1 + ·))) ++ [0])
termination_by r l => l.length + r.size
decreasing_by
  all_goals first
    | (simp [RE.size]; all_goals omega)
    | (have hd : (l.drop n).length ≤ l.length := by simp
       simp only [RE.size]; omega)
    | (have hmem := List.mem_filter.mp x.2
       have h1 : 0 < x.1 := of_decide_eq_true (Bool.and_elim_left hmem.2)
       have h2 : x.1 ≤ l.length := of_decide_eq_true (Bool.and_elim_right hmem.2)
       have hd : (l.drop x.1).length = l.length - x.1 := by simp
       simp only [RE.size]; omega)

/-- Python `re.search(...).group(1)` for the source's entity patterns (whose
group 1 spans the whole pattern): the backtracking-priority match at the
leftmost viable start position. -/
def RE.firstMatch : RE → List Char → Option (List Char)
  | r, [] => ((r.allMatches []).head?).map (fun _ => ([] : List Char))
  | r, c :: cs =>
    match (r.allMatches (c :: cs)).head? with
    | some n => some ((c :: cs).take n)
    | none => r.firstMatch cs


/-! ## Text normalization (dental_faq_matcher.py `_normalize_text`) -/

/-- The class `\w` (ASCII): letters, digits, underscore. -/
def isWordChar (c : Char) : Bool := c.isAlphanum || c == '_'

/-- Helper for `splitWs`: `acc` holds the current word reversed. -/
def splitWsAux : List Char → List Char → List (List Char)
  | [], acc => if acc.isEmpty then [] else [acc.reverse]
  | c :: cs, acc =>
    if c.isWhitespace then
      (if acc.isEmpty then splitWsAux cs [] else acc.reverse :: splitWsAux cs [])
    else splitWsAux cs (c :: acc)

/-- Split on whitespace dropping empty pieces — Python `str.split()`. -/
def splitWs (l : List Char) : List (List Char) := splitWsAux l []

/-- The `normalizations` table of `_normalize_text`, as a whole-word map.
After punctuation removal the text holds only word characters and
whitespace, so each `\b`-bounded `re.sub` rewrites exactly the
whitespace-delimited tokens, and no replacement string creates a match for
a later pattern; the chain of substitutions therefore equals this single
token map. -/
def normWord (w : List Char) : List Char :=
  if w = ['u'] then "you".toList
  else if w = ['u', 'r'] then "your".toList
  else if w = ['h', 'r'] ∨ w = ['h', 'r', 's'] then "hours".toList
  else if w = "appt".toList then "appointment".toList
  else if w = "dentist".toList then "dental".toList
  else if w = "doc".toList then "doctor".toList
  else w

/-- Join tokens with single spaces. -/
def joinTokens : List (List Char) → List Char
  | [] => []
  | [w] => w
  | w :: ws => w ++ ' ' :: joinTokens ws

/-- The lower-cased, stripped text with punctuation (`[^\w\s]`) replaced by
spaces. -/
def depunct (text : String) : List Char :=
  (pyStrip (pyLower text)).toList.map
    (fun c => if isWordChar c || c.isWhitespace then c else ' ')

/-- `_normalize_text`: lower-case and strip, replace punctuation by spaces,
expand the abbreviation table word-wise, collapse whitespace runs to single
spaces and strip again.  The final collapse and strip are realized by
re-joining the tokens with single spaces. -/
def normalize_text (text : String) : String :=
  String.mk (joinTokens ((splitWs (depunct text)).map normWord))

/-! ## Intent table (dental_faq_matcher.py `_load_intent_patterns`) -/

/-- Dental practice intent types (`IntentType`). -/
inductive IntentType where
  | appointment_booking
  | appointment_cancel
  | appointment_reschedule
  | hours_inquiry
  | insurance_inquiry
  | services_inquiry
  | location_inquiry
  | emergency
  | payment_inquiry
  | faq_specific
  | general_info
  | unknown
deriving DecidableEq, Repr

/-- One entry of the intent pattern table: keywords, patterns, response. -/
structure IntentData where
  keywords : List String
  patterns : List RE
  response : String

/-- The `appointment_booking` entry of the intent table. -/
def booking_rule : IntentData :=
  { keywords := ["schedule", "book", "appointment", "visit", "see doctor",
        "make appointment", "need appointment", "available times",
        "next available", "when can i come", "need to see dentist",
        "checkup", "cleaning", "consultation", "emergency visit"],
      patterns :=
        [RE.cat [RE.alts [RE.str "schedule", RE.str "book", RE.str "make"], RE.wsPlus,
           RE.opt (RE.cat [RE.lit 'a', RE.opt (RE.lit 'n'), RE.wsPlus]), RE.str "appointment"],
         RE.cat [RE.alts [RE.str "need", RE.str "want"], RE.wsPlus,
           RE.opt (RE.cat [RE.str "to", RE.wsPlus]), RE.alts [RE.str "schedule", RE.str "book"]],
         RE.cat [RE.str "available", RE.wsPlus,
           RE.alts [RE.cat [RE.str "time", RE.opt (RE.lit 's')],
             RE.cat [RE.str "slot", RE.opt (RE.lit 's')],
             RE.cat [RE.str "appointment", RE.opt (RE.lit 's')]]],
         RE.cat [RE.str "next", RE.wsPlus, RE.alts [RE.str "available", RE.str "open"],
           RE.wsPlus, RE.alts [RE.str "slot", RE.str "time", RE.str "appointment"]],
         RE.cat [RE.alts [RE.str "when", RE.cat [RE.str "what", RE.wsPlus, RE.str "time"]],
           RE.wsPlus, RE.str "can", RE.wsPlus, RE.lit 'i', RE.wsPlus,
           RE.alts [RE.str "come", RE.str "visit", RE.str "see"]]],
      response := "I" ++ apo ++ "d be happy to help you schedule an appointment. Let me gather some information to find the best time for you." }

/-- The `appointment_cancel` entry of the intent table. -/
def cancel_rule : IntentData :=
  { keywords := ["cancel", "cancellation", "can" ++ apo ++ "t make it", "need to cancel"],
      patterns :=
        [RE.cat [RE.opt (RE.alts [RE.cat [RE.str "need", RE.wsPlus, RE.str "to", RE.wsPlus],
           RE.cat [RE.str "want", RE.wsPlus, RE.str "to", RE.wsPlus]]), RE.str "cancel"],
         RE.cat [RE.str "can", RE.opt (RE.lit apoC), RE.lit 't', RE.wsPlus, RE.str "make",
           RE.wsPlus, RE.alts [RE.str "it", RE.cat [RE.str "my", RE.wsPlus, RE.str "appointment"]]]],
      response := "I can help you cancel your appointment. May I have your name and appointment date to locate your booking?" }

/-- The `appointment_reschedule` entry of the intent table. -/
def reschedule_rule : IntentData :=
  { keywords := ["reschedule", "change appointment", "move appointment", "different time"],
      patterns :=
        [RE.cat [RE.alts [RE.str "reschedule", RE.str "change", RE.str "move"], RE.wsPlus,
           RE.opt (RE.cat [RE.str "my", RE.wsPlus]), RE.str "appointment"],
         RE.cat [RE.str "different", RE.wsPlus, RE.alts [RE.str "time", RE.str "day", RE.str "date"]]],
      response := "I can help you reschedule your appointment. What would be a better time for you?" }

/-- The `hours_inquiry` entry of the intent table. -/
def hours_rule : IntentData :=
  { keywords := ["hours", "open", "close", "operating hours", "office hours", "what time"],
      patterns :=
        [RE.cat [RE.alts [RE.str "office", RE.str "operating", RE.str "business"], RE.wsPlus, RE.str "hours"],
         RE.cat [RE.str "what", RE.wsPlus, RE.str "time", RE.wsPlus,
           RE.opt (RE.cat [RE.str "do", RE.wsPlus, RE.str "you", RE.wsPlus]),
           RE.alts [RE.str "open", RE.str "close"]],
         RE.cat [RE.str "are", RE.wsPlus, RE.str "you", RE.wsPlus, RE.str "open"]],
      response := "Our office hours vary by day. Let me provide you with our current schedule. Is there a specific day you" ++ apo ++ "d like to visit?" }

/-- The `insurance_inquiry` entry of the intent table. -/
def insurance_rule : IntentData :=
  { keywords := ["insurance", "coverage", "accept", "covered", "plan", "benefits"],
      patterns :=
        [RE.cat [RE.opt (RE.cat [RE.str "do", RE.wsPlus, RE.str "you", RE.wsPlus]),
           RE.alts [RE.str "accept", RE.str "take"], RE.wsPlus,
           RE.opt (RE.cat [RE.str "my", RE.wsPlus]), RE.str "insurance"],
         RE.cat [RE.str "insurance", RE.wsPlus,
           RE.alts [RE.str "coverage", RE.cat [RE.str "plan", RE.opt (RE.lit 's')], RE.str "benefits"]],
         RE.cat [RE.alts [RE.str "is", RE.str "am"], RE.wsPlus,
           RE.alts [RE.str "this", RE.lit 'i'], RE.wsPlus, RE.str "covered"]],
      response := "We work with most major insurance plans. What insurance provider do you have? I can verify your coverage." }

/-- The `services_inquiry` entry of the intent table. -/
def services_rule : IntentData :=
  { keywords := ["services", "treatment", "procedure", "cleaning", "filling", "crown"],
      patterns :=
        [RE.cat [RE.str "what", RE.wsPlus,
           RE.alts [RE.str "services", RE.cat [RE.str "treatment", RE.opt (RE.lit 's')],
             RE.cat [RE.str "procedure", RE.opt (RE.lit 's')]]],
         RE.cat [RE.str "do", RE.wsPlus, RE.str "you", RE.wsPlus,
           RE.alts [RE.str "do", RE.str "offer", RE.str "provide"]],
         RE.alts [RE.str "cleaning", RE.str "filling", RE.str "crown",
           RE.cat [RE.str "root", RE.wsPlus, RE.str "canal"], RE.str "whitening"]],
      response := "We offer comprehensive dental services including cleanings, fillings, crowns, and more. What specific treatment are you interested in?" }

/-- The `location_inquiry` entry of the intent table. -/
def location_rule : IntentData :=
  { keywords := ["location", "address", "where", "directions", "parking"],
      patterns :=
        [RE.cat [RE.str "where", RE.wsPlus,
           RE.opt (RE.cat [RE.str "are", RE.wsPlus, RE.str "you", RE.wsPlus]),
           RE.alts [RE.str "located", RE.str "at"]],
         RE.cat [RE.opt (RE.cat [RE.str "your", RE.wsPlus]),
           RE.alts [RE.str "address", RE.str "location"]],
         RE.cat [RE.str "directions", RE.wsPlus, RE.str "to"]],
      response := "We" ++ apo ++ "re conveniently located with easy access and parking. Would you like our address and directions?" }

/-- The `emergency` entry of the intent table. -/
def emergency_rule : IntentData :=
  { keywords := ["emergency", "pain", "urgent", "broke", "lost filling", "swollen"],
      patterns :=
        [RE.cat [RE.opt (RE.cat [RE.str "dental", RE.wsPlus]), RE.str "emergency"],
         RE.cat [RE.alts [RE.str "severe", RE.str "bad", RE.str "terrible"], RE.wsPlus,
           RE.alts [RE.str "pain", RE.str "toothache"]],
         RE.cat [RE.alts [RE.str "broke", RE.str "lost", RE.cat [RE.str "fell", RE.wsPlus, RE.str "out"]],
           RE.wsPlus, RE.alts [RE.str "tooth", RE.str "filling", RE.str "crown"]]],
      response := "I understand this is urgent. For dental emergencies, please call our emergency line or visit the nearest hospital if severe. Can you describe what happened?" }

/-- The `payment_inquiry` entry of the intent table. -/
def payment_rule : IntentData :=
  { keywords := ["payment", "cost", "price", "how much", "financing", "payment plan"],
      patterns :=
        [RE.alts [RE.cat [RE.str "how", RE.wsPlus, RE.str "much"],
           RE.cat [RE.str "what", RE.wsPlus, RE.alts [RE.str "does", RE.str "is"],
             RE.wsPlus, RE.str "the", RE.wsPlus, RE.str "cost"]],
         RE.cat [RE.str "payment", RE.wsPlus,
           RE.alts [RE.cat [RE.str "plan", RE.opt (RE.lit 's')],
             RE.cat [RE.str "option", RE.opt (RE.lit 's')]]],
         RE.cat [RE.alts [RE.str "financing", RE.str "credit", RE.str "payment"],
           RE.wsPlus, RE.str "available"]],
      response := "We offer flexible payment options and financing plans. Costs vary by treatment. Would you like information about a specific procedure?" }

/-- The intent pattern table, in the declared iteration order. -/
def intent_patterns : List (IntentType × IntentData) :=
  [(IntentType.appointment_booking, booking_rule),
   (IntentType.appointment_cancel, cancel_rule),
   (IntentType.appointment_reschedule, reschedule_rule),
   (IntentType.hours_inquiry, hours_rule),
   (IntentType.insurance_inquiry, insurance_rule),
   (IntentType.services_inquiry, services_rule),
   (IntentType.location_inquiry, location_rule),
   (IntentType.emergency, emergency_rule),
   (IntentType.payment_inquiry, payment_rule)]

/-! ## Results and practice configuration -/

/-- `IntentResult` dataclass.  The entity dictionary is an association
list in insertion order. -/
structure IntentResult where
  intent : IntentType
  confidence : ℚ
  matched_keywords : List String
  extracted_entities : List (String × String)
  suggested_response : String
  tenant_specific : Bool := false
  faq_matched : Option String := none
deriving DecidableEq, Repr

/-- A value of the hours dictionary: the source accepts either a plain
string or a list of time-range strings per day. -/
inductive HoursVal where
  | strV (s : String)
  | listV (l : List String)
deriving DecidableEq, Repr

/-- `PracticeConfig` dataclass. -/
structure PracticeConfig where
  practice_id : String
  name : String
  phone_number : Option String := none
  hours_json : Option (List (String × HoursVal)) := none
  insurances_json : Option (List String) := none
  faq_json : Option (List (String × String)) := none
  services_json : Option (List String) := none
  location_json : Option (List (String × String)) := none
deriving DecidableEq, Repr

/-! ## Scoring (`_calculate_intent_confidence` and the similarity measures) -/

/-- `_calculate_intent_confidence`: keyword-fraction and pattern scores
combined as `max(keyword_score*0.6 + pattern_score*0.4, pattern_score)`,
plus the matched keywords in declared order. -/
def calculate_intent_confidence (transcript : String) (d : IntentData) : ℚ × List String :=
  let matched := d.keywords.filter (fun k => strContains transcript (pyLower k))
  let keyword_score : ℚ :=
    if d.keywords.length > 0 then (matched.length : ℚ) / (d.keywords.length : ℚ) else 0
  let pattern_score : ℚ :=
    if d.patterns.any (fun p => p.search transcript.toList) then 0.8 else 0
  (max (keyword_score * 0.6 + pattern_score * 0.4) pattern_score, matched)

/-- `_keyword_similarity`: shared-word count over the larger word-set size
(words are Python sets, realized by deduplicated lists). -/
def keyword_similarity (text1 text2 : String) : ℚ :=
  let words1 := (splitWs text1.toList).dedup
  let words2 := (splitWs text2.toList).dedup
  if words1 = [] ∨ words2 = [] then 0
  else ((words1.filter (fun w => w ∈ words2)).length : ℚ) /
    ((max words1.length words2.length : Nat) : ℚ)

/-- The nested loops of `_substring_similarity`: length of the longest
substring of `shorter` of length at least 3 occurring in `longer`. -/
def lcsLen (shorter longer : List Char) : Nat :=
  (List.range shorter.length).foldl (fun m i =>
    (List.range' (i + 3) (shorter.length + 1 - (i + 3))).foldl (fun m' j =>
      if listInfix ((shorter.drop i).take (j - i)) longer then max m' (j - i) else m') m) 0

/-- `_substring_similarity`. -/
def substring_similarity (text1 text2 : String) : ℚ :=
  let t1 := text1.toList
  let t2 := text2.toList
  if t1 = [] ∨ t2 = [] then 0
  else
    let longer := if t1.length > t2.length then t1 else t2
    let shorter := if t1.length > t2.length then t2 else t1
    ((lcsLen shorter longer : Nat) : ℚ) / ((max t1.length t2.length : Nat) : ℚ)

/-! ## difflib.SequenceMatcher ratio

The source's first similarity measure is
`SequenceMatcher(None, transcript, normalized_question).ratio()`.  We embed
difflib's algorithm without junk: `find_longest_match`'s `j2len` dynamic
programming stores, for each scanned pair `(i, j)`, the length of the run
of equal characters ending at `(i, j)` and reaching back no further than
`(alo, blo)`; scanning all pairs in the same `i`-then-`j` order with a
strict improvement test reproduces its choice of block.  The two junk
extension loops are identities because `isbjunk` is constantly false (the
autojunk heuristic only engages when the second string reaches 200
characters and is not modeled). -/

/-- Do positions `i` of `a` and `j` of `b` hold equal characters, with
`(i, j)` inside the `(alo, blo)` lower bounds? -/
def okPair (a b : List Char) (alo blo i j : Nat) : Bool :=
  decide (alo ≤ i) && decide (blo ≤ j) &&
    match a.get? i, b.get? j with
    | some x, some y => x == y
    | _, _ => false

/-- The `j2len` value at `(i, j)`. -/
def kEnd (a b : List Char) (alo blo : Nat) : Nat → Nat → Nat
  | 0, j => if okPair a b alo blo 0 j then 1 else 0
  | i + 1, 0 => if okPair a b alo blo (i + 1) 0 then 1 else 0
  | i + 1, j + 1 =>
      if okPair a b alo blo (i + 1) (j + 1) then kEnd a b alo blo i j + 1 else 0

/-- All scanned pairs of `find_longest_match`, in scan order. -/
def lexPairs (alo ahi blo bhi : Nat) : List (Nat × Nat) :=
  (List.range' alo (ahi - alo)).flatMap
    (fun i => (List.range' blo (bhi - blo)).map (fun j => (i, j)))

/-- The dynamic-programming phase of `find_longest_match`: best block as
`(besti, bestj, bestsize)`, strict improvements only.  Pairs with unequal
characters contribute `k = 0` and never update, matching the source's
iteration over the `b2j` index of equal characters only. -/
def flmBase (a b : List Char) (alo ahi blo bhi : Nat) : Nat × Nat × Nat :=
  (lexPairs alo ahi blo bhi).foldl
    (fun best ij =>
      let k := kEnd a b alo blo ij.1 ij.2
      if k > best.2.2 then (ij.1 + 1 - k, ij.2 + 1 - k, k) else best)
    (alo, blo, 0)

/-- The backward non-junk extension loop of `find_longest_match`. -/
def extendBack (a b : List Char) (alo blo : Nat) : Nat × Nat × Nat → Nat × Nat × Nat
  | (i, j, k) =>
    if h : alo < i ∧ blo < j ∧ okPair a b alo blo (i - 1) (j - 1) = true then
      extendBack a b alo blo (i - 1, j - 1, k + 1)
    else (i, j, k)
termination_by p => p.1
decreasing_by omega

/-- The forward non-junk extension loop of `find_longest_match`. -/
def extendFwd (a b : List Char) (ahi bhi : Nat) : Nat × Nat × Nat → Nat × Nat × Nat
  | (i, j, k) =>
    if h : i + k < ahi ∧ j + k < bhi ∧ okPair a b 0 0 (i + k) (j + k) = true then
      extendFwd a b ahi bhi (i, j, k + 1)
    else (i, j, k)
termination_by p => ahi - (p.1 + p.2.2)
decreasing_by omega

/-- `find_longest_match` with no junk. -/
def find_longest_match (a b : List Char) (alo ahi blo bhi : Nat) : Nat × Nat × Nat :=
  extendFwd a b ahi bhi (extendBack a b alo blo (flmBase a b alo ahi blo bhi))

/-- Total size of the matching blocks (`get_matching_blocks` recursion).
Each recursive level strictly shrinks `ahi - alo`, so running the
recursion with fuel `a.length + b.length + 1` never exhausts it on the
ranges used below. -/
def matchingTotal (a b : List Char) : Nat → Nat → Nat → Nat → Nat → Nat
  | 0, _, _, _, _ => 0
  | fuel + 1, alo, ahi, blo, bhi =>
    let m := find_longest_match a b alo ahi blo bhi
    if m.2.2 = 0 then 0
    else m.2.2 + matchingTotal a b fuel alo m.1 blo m.2.1 +
      matchingTotal a b fuel (m.1 + m.2.2) ahi (m.2.1 + m.2.2) bhi

/-- `SequenceMatcher(None, s1, s2).ratio()`: `2*M / T` where `M` is the
total matched size and `T` the total length, and `1.0` when `T = 0`. -/
def sequence_ratio (s1 s2 : String) : ℚ :=
  let a := s1.toList
  let b := s2.toList
  if a.length + b.length = 0 then 1
  else (2 * (matchingTotal a b (a.length + b.length + 1) 0 a.length 0 b.length) : ℚ) /
    ((a.length + b.length : Nat) : ℚ)

/-! ## FAQ matching and the analysis pipeline -/

/-- The per-question similarity computed inside `_match_practice_faq`'s
loop: the maximum of the three measures against the normalized question. -/
def faq_similarity (transcript question : String) : ℚ :=
  let nq := normalize_text question
  max (max (sequence_ratio transcript nq) (keyword_similarity transcript nq))
    (substring_similarity transcript nq)

/-- `_match_practice_faq`: fold over the FAQ mapping keeping the first
strictly-best similarity, then either the FAQ result (at threshold 0.7) or
an empty unknown result.  The caller guarantees `faq_json` is present;
`getD []` renders the attribute access. -/
def match_practice_faq (transcript : String) (c : PracticeConfig) : IntentResult :=
  let best := (c.faq_json.getD []).foldl
    (fun best qa =>
      let sim := faq_similarity transcript qa.1
      if sim > best.2.1 then (qa.1, sim, qa.2) else best)
    ("", (0 : ℚ), "")
  if best.2.1 ≥ 0.7 then
    { intent := IntentType.faq_specific, confidence := best.2.1, matched_keywords := [],
      extracted_entities := [("response", best.2.2)], suggested_response := best.2.2,
      tenant_specific := true, faq_matched := some best.1 }
  else
    { intent := IntentType.unknown, confidence := 0, matched_keywords := [],
      extracted_entities := [], suggested_response := "" }

/-- Entity pattern: time of day. -/
def timeRE : RE :=
  RE.cat [RE.digit, RE.opt RE.digit, RE.opt (RE.cat [RE.lit ':', RE.digit, RE.digit]),
    RE.star RE.ws,
    RE.alts [RE.str "am", RE.str "pm",
      RE.cat [RE.lit 'a', RE.lit '.', RE.lit 'm', RE.lit '.'],
      RE.cat [RE.lit 'p', RE.lit '.', RE.lit 'm', RE.lit '.']]]

/-- Entity pattern: day word. -/
def dayRE : RE :=
  RE.alts [RE.str "monday", RE.str "tuesday", RE.str "wednesday", RE.str "thursday",
    RE.str "friday", RE.str "saturday", RE.str "sunday", RE.str "today", RE.str "tomorrow"]

/-- Entity pattern: month-day date phrase. -/
def dateRE : RE :=
  RE.cat [RE.digit, RE.opt RE.digit,
    RE.opt (RE.alts [RE.str "st", RE.str "nd", RE.str "rd", RE.str "th"]), RE.wsPlus,
    RE.alts [RE.str "january", RE.str "february", RE.str "march", RE.str "april",
      RE.str "may", RE.str "june", RE.str "july", RE.str "august", RE.str "september",
      RE.str "october", RE.str "november", RE.str "december"]]

/-- Entity pattern: insurance provider. -/
def insuranceRE : RE :=
  RE.alts [RE.str "delta", RE.str "aetna", RE.str "cigna",
    RE.cat [RE.str "blue", RE.wsPlus, RE.str "cross"],
    RE.str "humana", RE.str "metlife", RE.str "united", RE.str "anthem"]

/-- Entity pattern: service keyword. -/
def serviceRE : RE :=
  RE.alts [RE.str "cleaning", RE.str "whitening", RE.str "filling", RE.str "crown",
    RE.cat [RE.str "root", RE.wsPlus, RE.str "canal"],
    RE.str "extraction", RE.str "braces", RE.str "implants"]

/-- Entity pattern: pain level adjective. -/
def painRE : RE :=
  RE.alts [RE.str "severe", RE.str "terrible", RE.str "unbearable", RE.str "mild",
    RE.str "moderate", RE.str "intense"]

/-- `_extract_entities`: the three time-related scans in dictionary order,
then the intent-specific scan. -/
def extract_entities (transcript : String) (intent : IntentType) : List (String × String) :=
  let l := transcript.toList
  let base :=
    (match RE.firstMatch timeRE l with
     | some m => [("time", String.mk m)] | none => []) ++
    (match RE.firstMatch dayRE l with
     | some m => [("day", String.mk m)] | none => []) ++
    (match RE.firstMatch dateRE l with
     | some m => [("date", String.mk m)] | none => [])
  let extra :=
    match intent with
    | IntentType.insurance_inquiry =>
      (match RE.firstMatch insuranceRE l with
       | some m => [("insurance_provider", String.mk m)] | none => [])
    | IntentType.services_inquiry =>
      (match RE.firstMatch serviceRE l with
       | some m => [("service_type", String.mk m)] | none => [])
    | IntentType.emergency =>
      (match RE.firstMatch painRE l with
       | some m => [("pain_level", String.mk m)] | none => [])
    | _ => []
  base ++ extra

/-! ## Response generation -/

/-- Truthiness of an optional list (Python: `None` and `[]` are falsy). -/
def optListTruthy {α : Type} : Option (List α) → Bool
  | none => false
  | some l => !l.isEmpty

/-- Python `str.title()` for ASCII text: uppercase a letter that does not
follow a letter, lowercase the rest. -/
def asciiTitle (s : String) : String :=
  String.mk ((s.toList.foldl
    (fun (acc : List Char × Bool) c =>
      ((if acc.2 then c.toLower else c.toUpper) :: acc.1, c.isAlpha))
    ([], false)).1.reverse)

/-- Python `str.replace("_", " ")`: a single-character pattern, so a
character map. -/
def replaceUnderscore (s : String) : String :=
  String.mk (s.toList.map (fun c => if c = '_' then ' ' else c))

/-- `_format_hours`. -/
def format_hours (hours : List (String × HoursVal)) : String :=
  let dayMap : List (String × String) :=
    [("mon", "Monday"), ("tue", "Tuesday"), ("wed", "Wednesday"), ("thu", "Thursday"),
     ("fri", "Friday"), ("sat", "Saturday"), ("sun", "Sunday")]
  let pieces := hours.filterMap (fun p =>
    match p.2 with
    | HoursVal.listV [] => none
    | HoursVal.strV "" => none
    | HoursVal.listV (t :: _) =>
      (dayMap.lookup p.1).map (fun dayName => dayName ++ " " ++ t)
    | HoursVal.strV s =>
      (dayMap.lookup p.1).map (fun dayName => dayName ++ " " ++ s))
  if pieces = [] then "available upon request" else String.intercalate ", " pieces

/-- The list-joining helper used for insurances and services: two items
joined by " and ", more items joined by commas with ", and " before the
last. -/
def pyJoinAnd (xs : List String) : String :=
  if xs.length ≤ 2 then String.intercalate " and " xs
  else String.intercalate ", " xs.dropLast ++ ", and " ++ (xs.getLast?.getD "")

/-- `_personalize_response`. -/
def personalize_response (response : String) (intent : IntentType) (c : PracticeConfig) :
    String :=
  if intent = IntentType.hours_inquiry ∧ optListTruthy c.hours_json then
    "Our office hours are " ++ format_hours (c.hours_json.getD []) ++
      ". Is there a specific day you" ++ apo ++ "d like to visit?"
  else if intent = IntentType.insurance_inquiry ∧ optListTruthy c.insurances_json then
    "We accept " ++ pyJoinAnd (c.insurances_json.getD []) ++
      " insurance plans. What insurance do you have?"
  else if intent = IntentType.services_inquiry ∧ optListTruthy c.services_json then
    "We offer " ++ pyJoinAnd (c.services_json.getD []) ++
      ". What specific treatment are you interested in?"
  else if intent = IntentType.location_inquiry ∧ optListTruthy c.location_json then
    "We" ++ apo ++ "re located at " ++
      (((c.location_json.getD []).lookup "address").getD "our convenient location") ++
      ". Would you like detailed directions?"
  else response

/-- `_enhance_response_with_entities`: append entity-derived clauses in the
fixed order day, insurance provider, service type, pain level. -/
def enhance_response_with_entities (response : String)
    (entities : List (String × String)) (_intent : IntentType) : String :=
  let r1 := match entities.lookup "day" with
    | some d =>
      let dayLower := pyLower d
      if dayLower = "today" ∨ dayLower = "tomorrow" then
        response ++ " For " ++ dayLower ++ ", let me check our availability."
      else response ++ " For " ++ asciiTitle d ++ ", let me check our availability."
    | none => response
  let r2 := match entities.lookup "insurance_provider" with
    | some p => r1 ++ " I see you have " ++ asciiTitle p ++ " insurance."
    | none => r1
  let r3 := match entities.lookup "service_type" with
    | some s => r2 ++ " You" ++ apo ++ "re asking about " ++ replaceUnderscore s ++ " services."
    | none => r2
  match entities.lookup "pain_level" with
  | some p => r3 ++ " I understand you" ++ apo ++ "re experiencing " ++ p ++ " pain."
  | none => r3

/-- `_generate_unknown_response`. -/
def generate_unknown_response (cfg : Option PracticeConfig) : String :=
  let base := "I" ++ apo ++
    "m not sure I understand. Could you please tell me how I can help you today?"
  match cfg with
  | some c =>
    let services :=
      if optListTruthy c.services_json then
        "appointments, " ++ String.intercalate ", " ((c.services_json.getD []).take 3) ++
          ", and other inquiries"
      else "appointments, insurance questions, office hours, and other inquiries"
    base ++ " I can assist with " ++ services ++ "."
  | none =>
    base ++ " I can assist with appointments, insurance questions, office hours, or other inquiries."

/-- `_generate_response`.  The table access `intent_patterns[intent]` is
only reached for intents present in the table (the generic classifier can
produce nothing else besides `unknown`, handled above); the impossible
miss is rendered as `""`. -/
def generate_response (intent : IntentType) (entities : List (String × String))
    (cfg : Option PracticeConfig) : String :=
  if intent = IntentType.unknown then generate_unknown_response cfg
  else if intent = IntentType.faq_specific then
    (entities.lookup "response").getD "I can help you with that."
  else
    let base := match (intent_patterns.lookup intent) with
      | some d => d.response
      | none => ""
    let base := match cfg with
      | some c => personalize_response base intent c
      | none => base
    if entities ≠ [] then enhance_response_with_entities base entities intent else base

/-- The generic-classification loop of `analyze_transcript`: fold over the
intent table keeping the first strictly-best confidence, starting from
`(unknown, 0.0, [])`. -/
def generic_best (n : String) : IntentType × ℚ × List String :=
  intent_patterns.foldl
    (fun acc p =>
      let ck := calculate_intent_confidence n p.2
      if ck.1 > acc.2.1 then (p.1, ck.1, ck.2) else acc)
    (IntentType.unknown, (0 : ℚ), ([] : List String))

/-- `analyze_transcript`: empty-input guard, practice-FAQ short circuit at
threshold 0.7, then generic classification over the intent table with
strict-improvement folding, entity extraction, and response generation.
The source's early `return` of the FAQ result is rendered as an
intermediate `Option`. -/
def analyze_transcript (transcript : String) (practice_config : Option PracticeConfig) :
    IntentResult :=
  if transcript = "" ∨ pyStrip transcript = "" then
    { intent := IntentType.unknown, confidence := 0, matched_keywords := [],
      extracted_entities := [],
      suggested_response := "I didn" ++ apo ++
        "t catch that. Could you please repeat your question?" }
  else
    let n := normalize_text transcript
    let faqHit : Option IntentResult :=
      match practice_config with
      | some c =>
        match c.faq_json with
        | some faqs =>
          if faqs ≠ [] then
            let fr := match_practice_faq n c
            if fr.confidence ≥ 0.7 then some fr else none
          else none
        | none => none
      | none => none
    match faqHit with
    | some fr => fr
    | none =>
      let best := generic_best n
      let entities := extract_entities n best.1
      let response := generate_response best.1 entities practice_config
      { intent := best.1, confidence := best.2.1, matched_keywords := best.2.2,
        extracted_entities := entities, suggested_response := response,
        tenant_specific := practice_config.isSome }

/-! ## Helper lemmas: strict-improvement folds -/

/-- A left fold that replaces the accumulator exactly when a candidate's
score strictly exceeds the accumulator's key either keeps the initial
accumulator (and then every score is bounded by its key), or returns the
injected first candidate that beats everything before it and at least ties
everything after it. -/
theorem foldl_strict_best {α β : Type} (score : α → ℚ) (inj : α → β) (key : β → ℚ)
    (hkey : ∀ x, key (inj x) = score x) :
    ∀ (l : List α) (init : β),
      (l.foldl (fun acc x => if score x > key acc then inj x else acc) init = init ∧
        ∀ e ∈ l, score e ≤ key init) ∨
      (∃ l₁ e l₂, l = l₁ ++ e :: l₂ ∧
        l.foldl (fun acc x => if score x > key acc then inj x else acc) init = inj e ∧
        key init < score e ∧ (∀ e' ∈ l₁, score e' < score e) ∧
        (∀ e' ∈ l₂, score e' ≤ score e)) := by
  intro l
  induction l with
  | nil => intro init; left; simp
  | cons x xs ih =>
    intro init
    by_cases hx : score x > key init
    · rcases ih (inj x) with ⟨heq, hall⟩ | ⟨l₁, e, l₂, hsplit, heq, hgt, hbefore, hafter⟩
      · right
        refine ⟨[], x, xs, rfl, ?_, hx, by simp, ?_⟩
        · simp only [List.foldl_cons, if_pos hx, heq]
        · intro e' he'
          have := hall e' he'
          rwa [hkey] at this
      · right
        have hxe : score x < score e := by rwa [hkey] at hgt
        refine ⟨x :: l₁, e, l₂, by simp [hsplit], ?_, lt_trans hx hxe, ?_, hafter⟩
        · simp only [List.foldl_cons, if_pos hx, heq]
        · intro e' he'
          rcases List.mem_cons.mp he' with rfl | h
          · exact hxe
          · exact hbefore e' h
    · rcases ih init with ⟨heq, hall⟩ | ⟨l₁, e, l₂, hsplit, heq, hgt, hbefore, hafter⟩
      · left
        constructor
        · simp only [List.foldl_cons, if_neg hx, heq]
        · intro e' he'
          rcases List.mem_cons.mp he' with rfl | h
          · exact le_of_not_lt hx
          · exact hall e' h
      · right
        refine ⟨x :: l₁, e, l₂, by simp [hsplit], ?_, hgt, ?_, hafter⟩
        · simp only [List.foldl_cons, if_neg hx, heq]
        · intro e' he'
          rcases List.mem_cons.mp he' with rfl | h
          · exact lt_of_le_of_lt (le_of_not_lt hx) hgt
          · exact hbefore e' h

/-- Consequence: the fold's key dominates every score in the list. -/
theorem foldl_strict_best_ge {α β : Type} (score : α → ℚ) (inj : α → β) (key : β → ℚ)
    (hkey : ∀ x, key (inj x) = score x) (l : List α) (init : β) :
    ∀ e ∈ l, score e ≤
      key (l.foldl (fun acc x => if score x > key acc then inj x else acc) init) := by
  intro e he
  rcases foldl_strict_best score inj key hkey l init with ⟨heq, hall⟩ |
    ⟨l₁, w, l₂, hsplit, heq, hgt, hbefore, hafter⟩
  · rw [heq]; exact hall e he
  · rw [heq, hkey]
    rw [hsplit] at he
    rcases List.mem_append.mp he with h | h
    · exact le_of_lt (hbefore e h)
    · rcases List.mem_cons.mp h with rfl | h
      · exact le_refl _
      · exact hafter e h

/-- Invariance of a left fold under a predicate preserved by each step. -/
theorem foldl_inv {α β : Type} (P : β → Prop) (f : β → α → β) :
    ∀ (l : List α) (init : β), P init → (∀ acc x, x ∈ l → P acc → P (f acc x)) →
      P (l.foldl f init) := by
  intro l
  induction l with
  | nil => intro init h _; exact h
  | cons x xs ih =>
    intro init h hstep
    exact ih (f init x) (hstep init x (List.mem_cons_self x xs) h)
      (fun acc y hy hacc => hstep acc y (List.mem_cons_of_mem x hy) hacc)

/-! ## Helper lemmas: the SequenceMatcher ratio is at most 1 -/

theorem okPair_bounds {a b : List Char} {alo blo i j : Nat}
    (h : okPair a b alo blo i j = true) : alo ≤ i ∧ blo ≤ j := by
  simp only [okPair, Bool.and_eq_true, decide_eq_true_eq] at h
  exact ⟨h.1.1, h.1.2⟩

theorem kEnd_le (a b : List Char) (alo blo : Nat) :
    ∀ i j, kEnd a b alo blo i j ≤ i + 1 - alo ∧ kEnd a b alo blo i j ≤ j + 1 - blo := by
  intro i
  induction i with
  | zero =>
    intro j
    simp only [kEnd]
    split
    case isTrue h => have := okPair_bounds h; omega
    case isFalse => omega
  | succ i ih =>
    intro j
    cases j with
    | zero =>
      simp only [kEnd]
      split
      case isTrue h => have := okPair_bounds h; omega
      case isFalse => omega
    | succ j =>
      simp only [kEnd]
      split
      case isTrue h =>
        have hb := okPair_bounds h
        have := ih j
        omega
      case isFalse => omega

theorem lexPairs_mem {alo ahi blo bhi : Nat} {i j : Nat}
    (h : (i, j) ∈ lexPairs alo ahi blo bhi) :
    alo ≤ i ∧ i < alo + (ahi - alo) ∧ blo ≤ j ∧ j < blo + (bhi - blo) := by
  simp only [lexPairs, List.mem_flatMap, List.mem_map, List.mem_range'] at h
  obtain ⟨i', hi', j', hj', heq⟩ := h
  obtain ⟨h1, h2⟩ := Prod.mk.injEq .. ▸ heq
  subst h1; subst h2
  omega


/-- Validity of a candidate block `(besti, bestj, bestsize)`. -/
def blockOk (alo ahi blo bhi i j k : Nat) : Prop :=
  alo ≤ i ∧ blo ≤ j ∧ i + k ≤ ahi ∧ j + k ≤ bhi

theorem flmBase_ok (a b : List Char) (alo ahi blo bhi : Nat)
    (h1 : alo ≤ ahi) (h2 : blo ≤ bhi) :
    blockOk alo ahi blo bhi (flmBase a b alo ahi blo bhi).1
      (flmBase a b alo ahi blo bhi).2.1 (flmBase a b alo ahi blo bhi).2.2 := by
  unfold flmBase
  apply foldl_inv (fun t : Nat × Nat × Nat => blockOk alo ahi blo bhi t.1 t.2.1 t.2.2)
  · exact ⟨le_refl _, le_refl _, by simpa, by simpa⟩
  · intro acc ij hij hacc
    have hm := lexPairs_mem (i := ij.1) (j := ij.2) (by simpa using hij)
    have hk := kEnd_le a b alo blo ij.1 ij.2
    obtain ⟨hm1, hm2, hm3, hm4⟩ := hm
    obtain ⟨hk1, hk2⟩ := hk
    obtain ⟨ha1, ha2, ha3, ha4⟩ := hacc
    simp only [blockOk]
    split
    · dsimp only
      exact ⟨by omega, by omega, by omega, by omega⟩
    · exact ⟨ha1, ha2, ha3, ha4⟩

theorem extendBack_ok (a b : List Char) (alo ahi blo bhi : Nat) :
    ∀ (i j k : Nat), blockOk alo ahi blo bhi i j k →
      blockOk alo ahi blo bhi (extendBack a b alo blo (i, j, k)).1
        (extendBack a b alo blo (i, j, k)).2.1 (extendBack a b alo blo (i, j, k)).2.2 := by
  intro i
  induction i using Nat.strong_induction_on with
  | _ i ih =>
    intro j k hok
    obtain ⟨h1, h2, h3, h4⟩ := hok
    rw [extendBack]
    split
    · rename_i h
      have hlt : i - 1 < i := by omega
      exact ih (i - 1) hlt (j - 1) (k + 1) ⟨by omega, by omega, by omega, by omega⟩
    · exact ⟨h1, h2, h3, h4⟩

theorem extendFwd_ok (a b : List Char) (alo ahi blo bhi : Nat) :
    ∀ (n i j k : Nat), n = ahi - (i + k) → blockOk alo ahi blo bhi i j k →
      blockOk alo ahi blo bhi (extendFwd a b ahi bhi (i, j, k)).1
        (extendFwd a b ahi bhi (i, j, k)).2.1 (extendFwd a b ahi bhi (i, j, k)).2.2 := by
  intro n
  induction n using Nat.strong_induction_on with
  | _ n ih =>
    intro i j k hn hok
    obtain ⟨h1, h2, h3, h4⟩ := hok
    rw [extendFwd]
    split
    · rename_i h
      have hlt : ahi - (i + (k + 1)) < n := by omega
      exact ih _ hlt i j (k + 1) rfl ⟨by omega, by omega, by omega, by omega⟩
    · exact ⟨h1, h2, h3, h4⟩

theorem find_longest_match_ok (a b : List Char) (alo ahi blo bhi : Nat)
    (h1 : alo ≤ ahi) (h2 : blo ≤ bhi) :
    blockOk alo ahi blo bhi (find_longest_match a b alo ahi blo bhi).1
      (find_longest_match a b alo ahi blo bhi).2.1
      (find_longest_match a b alo ahi blo bhi).2.2 := by
  unfold find_longest_match
  have hb := flmBase_ok a b alo ahi blo bhi h1 h2
  have he := extendBack_ok a b alo ahi blo bhi
    (flmBase a b alo ahi blo bhi).1 (flmBase a b alo ahi blo bhi).2.1
    (flmBase a b alo ahi blo bhi).2.2 hb
  have hf := extendFwd_ok a b alo ahi blo bhi _
    (extendBack a b alo blo (flmBase a b alo ahi blo bhi)).1
    (extendBack a b alo blo (flmBase a b alo ahi blo bhi)).2.1
    (extendBack a b alo blo (flmBase a b alo ahi blo bhi)).2.2 rfl he
  simpa using hf

theorem matchingTotal_le (a b : List Char) :
    ∀ (fuel alo ahi blo bhi : Nat), alo ≤ ahi → blo ≤ bhi →
      matchingTotal a b fuel alo ahi blo bhi ≤ ahi - alo ∧
      matchingTotal a b fuel alo ahi blo bhi ≤ bhi - blo := by
  intro fuel
  induction fuel with
  | zero => intro alo ahi blo bhi _ _; simp [matchingTotal]
  | succ fuel ih =>
    intro alo ahi blo bhi h1 h2
    have hok := find_longest_match_ok a b alo ahi blo bhi h1 h2
    obtain ⟨hb1, hb2, hb3, hb4⟩ := hok
    rw [matchingTotal]
    split
    · omega
    · rename_i hk
      have hl := ih alo (find_longest_match a b alo ahi blo bhi).1 blo
        (find_longest_match a b alo ahi blo bhi).2.1 (by omega) (by omega)
      have hr := ih ((find_longest_match a b alo ahi blo bhi).1 +
          (find_longest_match a b alo ahi blo bhi).2.2) ahi
        ((find_longest_match a b alo ahi blo bhi).2.1 +
          (find_longest_match a b alo ahi blo bhi).2.2) bhi (by omega) (by omega)
      omega

theorem sequence_ratio_le_one (s1 s2 : String) : sequence_ratio s1 s2 ≤ 1 := by
  unfold sequence_ratio
  dsimp only
  split
  · exact le_refl 1
  · rename_i h
    have hM := matchingTotal_le s1.toList s2.toList
      (s1.toList.length + s2.toList.length + 1) 0 s1.toList.length 0 s2.toList.length
      (Nat.zero_le _) (Nat.zero_le _)
    have hnum : 2 * matchingTotal s1.toList s2.toList
        (s1.toList.length + s2.toList.length + 1) 0 s1.toList.length 0 s2.toList.length ≤
        s1.toList.length + s2.toList.length := by omega
    have hpos : (0 : ℚ) < ((s1.toList.length + s2.toList.length : Nat) : ℚ) := by
      have : 0 < s1.toList.length + s2.toList.length := Nat.pos_of_ne_zero h
      exact_mod_cast this
    rw [div_le_one hpos]
    exact_mod_cast hnum

/-! ## Helper lemmas: the other similarity measures -/

theorem keyword_similarity_le_one (t1 t2 : String) : keyword_similarity t1 t2 ≤ 1 := by
  unfold keyword_similarity
  dsimp only
  split
  · norm_num
  · rename_i h
    push_neg at h
    have hne : (splitWs t1.toList).dedup ≠ [] := h.1
    have hlen : 0 < (splitWs t1.toList).dedup.length := List.length_pos.mpr hne
    have hfil : ((splitWs t1.toList).dedup.filter
        (fun w => w ∈ (splitWs t2.toList).dedup)).length ≤
        (splitWs t1.toList).dedup.length := List.length_filter_le _ _
    have hmax : (splitWs t1.toList).dedup.length ≤
        max (splitWs t1.toList).dedup.length (splitWs t2.toList).dedup.length :=
      le_max_left _ _
    have hpos : (0 : ℚ) < ((max (splitWs t1.toList).dedup.length
        (splitWs t2.toList).dedup.length : Nat) : ℚ) := by
      have : 0 < max (splitWs t1.toList).dedup.length (splitWs t2.toList).dedup.length := by
        omega
      exact_mod_cast this
    rw [div_le_one hpos]
    exact_mod_cast le_trans hfil hmax

theorem keyword_similarity_self {t : String} (h : splitWs t.toList ≠ []) :
    keyword_similarity t t = 1 := by
  unfold keyword_similarity
  dsimp only
  have hne : (splitWs t.toList).dedup ≠ [] := by
    simpa [List.dedup_eq_nil] using h
  rw [if_neg (fun hor => hor.elim hne hne)]
  have hfil : (splitWs t.toList).dedup.filter
      (fun w => w ∈ (splitWs t.toList).dedup) = (splitWs t.toList).dedup := by
    apply List.filter_eq_self.mpr
    intro a ha
    simpa using ha
  rw [hfil, max_self]
  have hlen : 0 < (splitWs t.toList).dedup.length := List.length_pos.mpr hne
  have : ((splitWs t.toList).dedup.length : ℚ) ≠ 0 := by
    exact_mod_cast Nat.pos_iff_ne_zero.mp hlen
  exact div_self this

theorem lcsLen_le (shorter longer : List Char) : lcsLen shorter longer ≤ shorter.length := by
  unfold lcsLen
  apply foldl_inv (fun m => m ≤ shorter.length)
  · exact Nat.zero_le _
  · intro acc i hi hacc
    apply foldl_inv (fun m => m ≤ shorter.length)
    · exact hacc
    · intro acc' j hj hacc'
      have hjm := List.mem_range'.mp hj
      split
      · have : j - i ≤ shorter.length := by omega
        omega
      · exact hacc'

theorem substring_similarity_le_one (t1 t2 : String) : substring_similarity t1 t2 ≤ 1 := by
  unfold substring_similarity
  dsimp only
  split
  · norm_num
  · rename_i h
    push_neg at h
    have h1 : 0 < t1.toList.length := List.length_pos.mpr h.1
    have h2 : 0 < t2.toList.length := List.length_pos.mpr h.2
    have hsh : (if t1.toList.length > t2.toList.length then t2.toList else t1.toList).length ≤
        max t1.toList.length t2.toList.length := by
      split <;> omega
    have hlcs := lcsLen_le
      (if t1.toList.length > t2.toList.length then t2.toList else t1.toList)
      (if t1.toList.length > t2.toList.length then t1.toList else t2.toList)
    have hpos : (0 : ℚ) < ((max t1.toList.length t2.toList.length : Nat) : ℚ) := by
      have : 0 < max t1.toList.length t2.toList.length := by omega
      exact_mod_cast this
    rw [div_le_one hpos]
    exact_mod_cast le_trans hlcs hsh

theorem faq_similarity_le_one (t q : String) : faq_similarity t q ≤ 1 := by
  unfold faq_similarity
  exact max_le (max_le (sequence_ratio_le_one _ _) (keyword_similarity_le_one _ _))
    (substring_similarity_le_one _ _)

theorem sequence_ratio_nil : sequence_ratio "" "" = 1 := by
  simp [sequence_ratio]

theorem faq_similarity_eq_one {t q : String} (heq : normalize_text q = t)
    (hw : t = "" ∨ splitWs t.toList ≠ []) : faq_similarity t q = 1 := by
  apply le_antisymm (faq_similarity_le_one t q)
  unfold faq_similarity
  rw [heq]
  rcases hw with rfl | hw
  · calc (1 : ℚ) = sequence_ratio "" "" := sequence_ratio_nil.symm
      _ ≤ max (sequence_ratio "" "") (keyword_similarity "" "") := le_max_left _ _
      _ ≤ _ := le_max_left _ _
  · calc (1 : ℚ) = keyword_similarity t t := (keyword_similarity_self hw).symm
      _ ≤ max (sequence_ratio t t) (keyword_similarity t t) := le_max_right _ _
      _ ≤ _ := le_max_left _ _

/-! ## Helper lemmas: normalized text splits into words -/

theorem splitWsAux_ne_nil : ∀ (l acc : List Char), acc ≠ [] → splitWsAux l acc ≠ [] := by
  intro l
  induction l with
  | nil =>
    intro acc h
    rw [splitWsAux, if_neg (by simpa using h)]
    simp
  | cons c cs ih =>
    intro acc h
    rw [splitWsAux]
    split
    · rw [if_neg (by simpa using h)]
      simp
    · exact ih (c :: acc) (by simp)

theorem splitWsAux_tokens : ∀ (l acc : List Char),
    (∀ c ∈ acc, c.isWhitespace = false) →
    ∀ w ∈ splitWsAux l acc, w ≠ [] ∧ ∀ c ∈ w, c.isWhitespace = false := by
  intro l
  induction l with
  | nil =>
    intro acc hacc w hw
    rw [splitWsAux] at hw
    split at hw
    · simp at hw
    · rename_i hemp
      have hne : acc ≠ [] := by simpa using hemp
      simp only [List.mem_singleton] at hw
      subst hw
      refine ⟨by simpa using hne, ?_⟩
      intro c hc
      exact hacc c (by simpa using hc)
  | cons c cs ih =>
    intro acc hacc w hw
    rw [splitWsAux] at hw
    split at hw
    · split at hw
      · exact ih [] (by simp) w hw
      · rename_i hemp
        rcases List.mem_cons.mp hw with rfl | hw'
        · have hne : acc ≠ [] := by simpa using hemp
          refine ⟨by simpa using hne, ?_⟩
          intro x hx
          exact hacc x (by simpa using hx)
        · exact ih [] (by simp) w hw'
    · rename_i hws
      refine ih (c :: acc) ?_ w hw
      intro x hx
      rcases List.mem_cons.mp hx with rfl | hx'
      · simpa using hws
      · exact hacc x hx'

theorem normWord_good {w : List Char} (h1 : w ≠ [])
    (h2 : ∀ c ∈ w, c.isWhitespace = false) :
    normWord w ≠ [] ∧ ∀ c ∈ normWord w, c.isWhitespace = false := by
  unfold normWord
  split_ifs <;> first | exact ⟨h1, h2⟩ | exact ⟨by decide, by decide⟩

theorem splitWs_ne_nil_of_head {c : Char} (cs : List Char)
    (h : c.isWhitespace = false) : splitWs (c :: cs) ≠ [] := by
  unfold splitWs
  rw [splitWsAux, if_neg (by simp [h])]
  exact splitWsAux_ne_nil cs [c] (by simp)

theorem normalize_words_ne_nil {s : String} (h : normalize_text s ≠ "") :
    splitWs (normalize_text s).toList ≠ [] := by
  unfold normalize_text at h ⊢
  cases hts : (splitWs (depunct s)).map normWord with
  | nil => exact absurd (by rw [hts]; rfl) h
  | cons w0 rest =>
    have hmem : w0 ∈ (splitWs (depunct s)).map normWord := by
      rw [hts]; exact List.mem_cons_self _ _
    obtain ⟨t0, ht0mem, ht0⟩ := List.mem_map.mp hmem
    have htok := splitWsAux_tokens (depunct s) [] (by simp) t0 ht0mem
    have hng := normWord_good htok.1 htok.2
    rw [ht0] at hng
    obtain ⟨hw0ne, hw0ws⟩ := hng
    cases hw0 : w0 with
    | nil => exact absurd hw0 hw0ne
    | cons c t =>
      have hc : c.isWhitespace = false := hw0ws c (by rw [hw0]; exact List.mem_cons_self _ _)
      cases rest with
      | nil => exact splitWs_ne_nil_of_head t hc
      | cons w1 rest' =>
        exact splitWs_ne_nil_of_head (t ++ ' ' :: joinTokens (w1 :: rest')) hc

/-! ## Helper lemmas: the booking state machine -/

theorem update_facts (s : BookingSession) (r : String) (now : Nat) :
    (update_session_with_response s r now).current_step = s.current_step ∧
    (update_session_with_response s r now).session_id = s.session_id ∧
    (update_session_with_response s r now).updated_at = now ∧
    ((update_session_with_response s r now).customer_name ≠ s.customer_name →
      s.current_step = BookingStep.gather_name) ∧
    ((update_session_with_response s r now).customer_phone ≠ s.customer_phone →
      s.current_step = BookingStep.gather_phone) ∧
    ((update_session_with_response s r now).service_type ≠ s.service_type →
      s.current_step = BookingStep.gather_service) := by
  unfold update_session_with_response
  cases hcs : s.current_step <;> simp [hcs]

theorem updatedSession_step (s : BookingSession) (u : Option String) (now : Nat) :
    (updatedSession s u now).current_step = s.current_step := by
  unfold updatedSession
  cases u with
  | none => rfl
  | some r =>
    by_cases hr : r = ""
    · simp [hr]
    · simp [hr, (update_facts s r now).1]

theorem updatedSession_fields (s : BookingSession) (u : Option String) (now : Nat) :
    ((updatedSession s u now).customer_name ≠ s.customer_name →
      s.current_step = BookingStep.gather_name) ∧
    ((updatedSession s u now).customer_phone ≠ s.customer_phone →
      s.current_step = BookingStep.gather_phone) ∧
    ((updatedSession s u now).service_type ≠ s.service_type →
      s.current_step = BookingStep.gather_service) := by
  unfold updatedSession
  cases u with
  | none => simp
  | some r =>
    by_cases hr : r = ""
    · simp [hr]
    · have h := update_facts s r now
      simp only [hr, ne_eq, not_false_eq_true, if_true]
      exact ⟨h.2.2.2.1, h.2.2.2.2.1, h.2.2.2.2.2⟩

theorem updatedSession_updated_at (s : BookingSession) (u : Option String) (now : Nat) :
    (updatedSession s u now).updated_at =
      (if optTruthy u = true then now else s.updated_at) := by
  unfold updatedSession
  cases u with
  | none => simp [optTruthy]
  | some r =>
    by_cases hr : r = ""
    · simp [hr, optTruthy]
    · simp [hr, optTruthy, (update_facts s r now).2.2.1]

theorem updatedSession_sid (s : BookingSession) (u : Option String) (now : Nat) :
    (updatedSession s u now).session_id = s.session_id := by
  unfold updatedSession
  cases u with
  | none => rfl
  | some r =>
    by_cases hr : r = ""
    · simp [hr]
    · simp [hr, (update_facts s r now).2.1]

set_option maxHeartbeats 2000000 in
theorem gnq_dispatch_frame (sid : String) (s : BookingSession) (u : Option String)
    (r : Reply) (s' : BookingSession) (h : gnq_dispatch sid s u = Except.ok (r, s')) :
    s'.customer_name = s.customer_name ∧ s'.customer_phone = s.customer_phone ∧
    s'.service_type = s.service_type ∧ s'.updated_at = s.updated_at ∧
    s'.session_id = s.session_id := by
  unfold gnq_dispatch handle_confirmation_changes at h
  revert h
  cases u <;> cases hcs : s.current_step <;> intro h <;> dsimp only at h <;>
    (try split_ifs at h) <;>
    first
    | (simp only [Except.ok.injEq, Prod.mk.injEq] at h
       obtain ⟨-, rfl⟩ := h
       exact ⟨rfl, rfl, rfl, rfl, rfl⟩)
    | simp at h

/-! ## Claim theorems: booking flow -/

/-- A sample session used by witnesses and counterexamples. -/
def demoSession (step : BookingStep) : BookingSession :=
  { session_id := "booking_c1_0", call_id := "c1", current_step := step,
    customer_name := some "Jane Doe", customer_phone := some "(555) 111-2222",
    service_type := some "cleaning" }

/-- Claim C1: phone normalization strips non-digits and formats 10-digit
numbers; but for 11 digits with a leading 1 the source's slices
`[1:4]`, `[3:6]`, `[6:]` produce "(555) 512-34567" for "15551234567", not
the "(555) 123-4567" the specification states.  This theorem evaluates the
embedded source at the specification's own test vectors. -/
theorem clean_phone_number_slices :
    clean_phone_number "555-123-4567" = "(555) 123-4567" ∧
    clean_phone_number "15551234567" = "(555) 512-34567" ∧
    clean_phone_number "15551234567" ≠ "(555) 123-4567" ∧
    clean_phone_number "abc" = "abc" := by
  refine ⟨by decide, by decide, by decide, by decide⟩

/-- Claim C2: an unknown session id yields the error-shaped reply, but a
session sitting in `confirm_details` advanced with an absent utterance hits
`_is_confirmation_positive(None)`, whose `None.lower()` raises
`AttributeError` — the call does not return a value.  This theorem
evaluates the embedded source at both inputs. -/
theorem get_next_question_silent_confirmation_crash :
    get_next_question [] "missing" (some "hi") 0 =
      Except.ok ({ error := some "Session not found" }, []) ∧
    get_next_question [("b1", demoSession BookingStep.confirm_details)] "b1" none 0 =
      Except.error PyError.attributeError := by
  refine ⟨rfl, rfl⟩

/-- Claim C3: under `get_next_question` a session's step only moves forward
in the declared order, except that from `confirm_details` a non-positive
utterance naming "name", "phone"/"number", or "service"/"appointment"
(checked in that priority order) regresses to the corresponding gather
step; no other backward transition is reachable (these are the only
transitions any call sequence can take). -/
theorem booking_step_forward_or_named_correction (sid : String) (s : BookingSession)
    (u : Option String) (now : Nat) (r : Reply) (s' : BookingSession)
    (h : get_next_question_session sid s u now = Except.ok (r, s')) :
    s.current_step.idx ≤ s'.current_step.idx ∨
    (s.current_step = BookingStep.confirm_details ∧ ∃ resp, u = some resp ∧
      is_confirmation_positive resp = false ∧
      ((strContains (pyLower resp) "name" = true ∧
        s'.current_step = BookingStep.gather_name) ∨
       (strContains (pyLower resp) "name" = false ∧
        (strContains (pyLower resp) "phone" = true ∨
         strContains (pyLower resp) "number" = true) ∧
        s'.current_step = BookingStep.gather_phone) ∨
       (strContains (pyLower resp) "name" = false ∧
        strContains (pyLower resp) "phone" = false ∧
        strContains (pyLower resp) "number" = false ∧
        (strContains (pyLower resp) "service" = true ∨
         strContains (pyLower resp) "appointment" = true) ∧
        s'.current_step = BookingStep.gather_service))) := by
  unfold get_next_question_session at h
  have hstep := updatedSession_step s u now
  set s1 := updatedSession s u now with hs1
  unfold gnq_dispatch at h
  rw [hstep] at h
  revert h
  cases hcs : s.current_step <;> intro h <;> dsimp only at h
  case initial_intent =>
    left
    simp only [Except.ok.injEq, Prod.mk.injEq] at h
    obtain ⟨-, rfl⟩ := h
    simp [BookingStep.idx]
  case gather_name =>
    left
    split_ifs at h <;> simp only [Except.ok.injEq, Prod.mk.injEq] at h <;>
      obtain ⟨-, rfl⟩ := h
    · simp [hstep, hcs, BookingStep.idx]
    · simp [BookingStep.idx]
  case gather_phone =>
    left
    split_ifs at h <;> simp only [Except.ok.injEq, Prod.mk.injEq] at h <;>
      obtain ⟨-, rfl⟩ := h
    · simp [hstep, hcs, BookingStep.idx]
    · simp [BookingStep.idx]
  case gather_service =>
    left
    split_ifs at h <;> simp only [Except.ok.injEq, Prod.mk.injEq] at h <;>
      obtain ⟨-, rfl⟩ := h
    · simp [hstep, hcs, BookingStep.idx]
    · simp [BookingStep.idx]
  case confirm_details =>
    cases u with
    | none => simp at h
    | some resp =>
      dsimp only at h
      by_cases hpos : is_confirmation_positive resp = true
      · left
        rw [hpos] at h
        simp only [if_true] at h
        simp only [Except.ok.injEq, Prod.mk.injEq] at h
        obtain ⟨-, rfl⟩ := h
        simp [BookingStep.idx]
      · have hposF : is_confirmation_positive resp = false := by
          simpa using hpos
        rw [hposF] at h
        simp only [Bool.false_eq_true, if_false] at h
        unfold handle_confirmation_changes at h
        dsimp only at h
        split_ifs at h with hname hpn hsa <;>
          simp only [Except.ok.injEq, Prod.mk.injEq] at h <;> obtain ⟨-, rfl⟩ := h
        · exact Or.inr ⟨rfl, resp, rfl, hposF, Or.inl ⟨hname, rfl⟩⟩
        · refine Or.inr ⟨rfl, resp, rfl, hposF, Or.inr (Or.inl ⟨?_, ?_, rfl⟩)⟩
          · simpa using hname
          · simpa [Bool.or_eq_true] using hpn
        · refine Or.inr ⟨rfl, resp, rfl, hposF, Or.inr (Or.inr ⟨?_, ?_, ?_, ?_, rfl⟩)⟩
          · simpa using hname
          · have := hpn
            simp [Bool.or_eq_true] at this
            exact this.1
          · have := hpn
            simp [Bool.or_eq_true] at this
            exact this.2
          · simpa [Bool.or_eq_true] using hsa
        · left
          simp [hstep, hcs, BookingStep.idx]
  all_goals
    left
    simp only [Except.ok.injEq, Prod.mk.injEq] at h
    obtain ⟨-, rfl⟩ := h
    simp [hstep, hcs, BookingStep.idx]

/-- Witness for C3: a concrete regression from `confirm_details` to
`gather_name` satisfies the characterization. -/
theorem booking_step_forward_or_named_correction_witness :
    ∃ r s', get_next_question_session "b1" (demoSession BookingStep.confirm_details)
        (some "change the name") 5 = Except.ok (r, s') ∧
      ((demoSession BookingStep.confirm_details).current_step.idx ≤ s'.current_step.idx ∨
       ((demoSession BookingStep.confirm_details).current_step = BookingStep.confirm_details ∧
        ∃ resp, (some "change the name" : Option String) = some resp ∧
          is_confirmation_positive resp = false ∧
          ((strContains (pyLower resp) "name" = true ∧
            s'.current_step = BookingStep.gather_name) ∨
           (strContains (pyLower resp) "name" = false ∧
            (strContains (pyLower resp) "phone" = true ∨
             strContains (pyLower resp) "number" = true) ∧
            s'.current_step = BookingStep.gather_phone) ∨
           (strContains (pyLower resp) "name" = false ∧
            strContains (pyLower resp) "phone" = false ∧
            strContains (pyLower resp) "number" = false ∧
            (strContains (pyLower resp) "service" = true ∨
             strContains (pyLower resp) "appointment" = true) ∧
            s'.current_step = BookingStep.gather_service)))) :=
  ⟨_, _, rfl, booking_step_forward_or_named_correction "b1"
    (demoSession BookingStep.confirm_details) (some "change the name") 5 _ _ rfl⟩

/-- Claim C8: in `confirm_details`, the utterance "no, wrong phone number"
regresses to `gather_phone` with the targeted re-ask and leaves name and
service untouched; and in general a response processed in one step never
writes a field belonging to a different step. -/
theorem confirmation_correction_frame :
    (∀ (sid : String) (s : BookingSession) (now : Nat),
      s.current_step = BookingStep.confirm_details →
      ∃ r s', get_next_question_session sid s (some "no, wrong phone number") now =
          Except.ok (r, s') ∧
        s'.current_step = BookingStep.gather_phone ∧
        r.question = some ("What" ++ apo ++ "s the correct phone number?") ∧
        s'.customer_name = s.customer_name ∧ s'.service_type = s.service_type) ∧
    (∀ (sid : String) (s : BookingSession) (u : Option String) (now : Nat)
        (r : Reply) (s' : BookingSession),
      get_next_question_session sid s u now = Except.ok (r, s') →
      (s'.customer_name ≠ s.customer_name → s.current_step = BookingStep.gather_name) ∧
      (s'.customer_phone ≠ s.customer_phone → s.current_step = BookingStep.gather_phone) ∧
      (s'.service_type ≠ s.service_type → s.current_step = BookingStep.gather_service)) := by
  constructor
  · intro sid s now hcs
    have hpos : is_confirmation_positive "no, wrong phone number" = false := by decide
    have hname : strContains (pyLower "no, wrong phone number") "name" = false := by decide
    have hphone : strContains (pyLower "no, wrong phone number") "phone" = true := by decide
    unfold get_next_question_session updatedSession update_session_with_response
      gnq_dispatch handle_confirmation_changes
    simp only [hcs, hpos, hname, hphone]
    exact ⟨_, _, rfl, rfl, rfl, rfl, rfl⟩
  · intro sid s u now r s' h
    unfold get_next_question_session at h
    have hf := gnq_dispatch_frame sid (updatedSession s u now) u r s' h
    have hups := updatedSession_fields s u now
    refine ⟨?_, ?_, ?_⟩
    · intro hne
      exact hups.1 (by rw [← hf.1]; exact hne)
    · intro hne
      exact hups.2.1 (by rw [← hf.2.1]; exact hne)
    · intro hne
      exact hups.2.2 (by rw [← hf.2.2.1]; exact hne)

/-- Witness for C8: the concrete correction scenario at a fully populated
session. -/
theorem confirmation_correction_frame_witness :
    ∃ r s', get_next_question_session "b1" (demoSession BookingStep.confirm_details)
        (some "no, wrong phone number") 5 = Except.ok (r, s') ∧
      s'.current_step = BookingStep.gather_phone ∧
      r.question = some ("What" ++ apo ++ "s the correct phone number?") ∧
      s'.customer_name = (demoSession BookingStep.confirm_details).customer_name ∧
      s'.service_type = (demoSession BookingStep.confirm_details).service_type :=
  confirmation_correction_frame.1 "b1" (demoSession BookingStep.confirm_details) 5 rfl

/-- Claim C9 counterexample: advancing a session from `initial_intent` with
no user response mutates `current_step` but leaves `updated_at` untouched,
so not every session mutation refreshes the timestamp. -/
theorem updated_at_unchanged_without_response :
    (get_next_question_session "b1" (demoSession BookingStep.initial_intent) none
        7).toOption.map (fun p => (p.2.current_step, p.2.updated_at)) =
      some (BookingStep.gather_name, 0) ∧
    (demoSession BookingStep.initial_intent).current_step = BookingStep.initial_intent ∧
    (demoSession BookingStep.initial_intent).updated_at = 0 ∧ (0 : Nat) ≠ 7 := by
  refine ⟨rfl, rfl, rfl, by decide⟩

/-- Claim C9 as amended: a mutation performed while processing a truthy
user response stamps `updated_at` with the current time; a call with an
absent or empty response leaves `updated_at` unchanged even when it moves
the step. -/
theorem updated_at_tracks_truthy_response (sid : String) (s : BookingSession)
    (u : Option String) (now : Nat) (r : Reply) (s' : BookingSession)
    (h : get_next_question_session sid s u now = Except.ok (r, s')) :
    (optTruthy u = true → s'.updated_at = now) ∧
    (optTruthy u = false → s'.updated_at = s.updated_at) := by
  unfold get_next_question_session at h
  have hf := gnq_dispatch_frame sid (updatedSession s u now) u r s' h
  have hu := updatedSession_updated_at s u now
  constructor <;> intro ht <;> rw [hf.2.2.2.1, hu, ht] <;> simp

/-- Witness for C9's amended claim at a concrete truthy-response call. -/
theorem updated_at_tracks_truthy_response_witness :
    ∃ r s', get_next_question_session "b1" (demoSession BookingStep.gather_name)
        (some "Jane Doe") 9 = Except.ok (r, s') ∧
      (optTruthy (some "Jane Doe") = true → s'.updated_at = 9) ∧
      (optTruthy (some "Jane Doe") = false →
        s'.updated_at = (demoSession BookingStep.gather_name).updated_at) :=
  ⟨_, _, rfl, updated_at_tracks_truthy_response "b1" (demoSession BookingStep.gather_name)
    (some "Jane Doe") 9 _ _ rfl⟩

/-- Claim C10 (implicit): a correction that regresses a session from
`confirm_details` to a gather step does not clear that step's field, so
when the next call for the session arrives with an absent utterance the
gather step sees its field populated, skips the re-prompt, and moves
forward again carrying the stale value. -/
theorem stale_field_after_regression (sid : String) (s : BookingSession) (u : String)
    (now now2 : Nat) (r : Reply) (s1 : BookingSession)
    (hcs : s.current_step = BookingStep.confirm_details)
    (h : get_next_question_session sid s (some u) now = Except.ok (r, s1)) :
    (s1.current_step = BookingStep.gather_name →
      s1.customer_name = s.customer_name ∧
      (optTruthy s.customer_name = true → ∃ r2 s2,
        get_next_question_session sid s1 none now2 = Except.ok (r2, s2) ∧
        s2.current_step = BookingStep.gather_phone ∧
        s2.customer_name = s.customer_name)) ∧
    (s1.current_step = BookingStep.gather_phone →
      s1.customer_phone = s.customer_phone ∧
      (optTruthy s.customer_phone = true → ∃ r2 s2,
        get_next_question_session sid s1 none now2 = Except.ok (r2, s2) ∧
        s2.current_step = BookingStep.gather_service ∧
        s2.customer_phone = s.customer_phone)) ∧
    (s1.current_step = BookingStep.gather_service →
      s1.service_type = s.service_type ∧
      (optTruthy s.service_type = true → ∃ r2 s2,
        get_next_question_session sid s1 none now2 = Except.ok (r2, s2) ∧
        s2.current_step = BookingStep.confirm_details ∧
        s2.service_type = s.service_type)) := by
  have hfields : s1.customer_name = s.customer_name ∧
      s1.customer_phone = s.customer_phone ∧ s1.service_type = s.service_type := by
    unfold get_next_question_session at h
    have hf := gnq_dispatch_frame sid (updatedSession s (some u) now) (some u) r s1 h
    have hup : (updatedSession s (some u) now).customer_name = s.customer_name ∧
        (updatedSession s (some u) now).customer_phone = s.customer_phone ∧
        (updatedSession s (some u) now).service_type = s.service_type := by
      unfold updatedSession update_session_with_response
      by_cases hu0 : u = ""
      · simp [hu0]
      · simp [hu0, hcs]
    exact ⟨hf.1.trans hup.1, hf.2.1.trans hup.2.1, hf.2.2.1.trans hup.2.2⟩
  refine ⟨?_, ?_, ?_⟩
  · intro hs1
    refine ⟨hfields.1, ?_⟩
    intro htru
    unfold get_next_question_session updatedSession gnq_dispatch
    rw [hs1]
    have hcond : optTruthy s1.customer_name = true := by rw [hfields.1]; exact htru
    simp only [hcond, Bool.not_true, Bool.false_eq_true, if_false]
    exact ⟨_, _, rfl, rfl, hfields.1⟩
  · intro hs1
    refine ⟨hfields.2.1, ?_⟩
    intro htru
    unfold get_next_question_session updatedSession gnq_dispatch
    rw [hs1]
    have hcond : optTruthy s1.customer_phone = true := by rw [hfields.2.1]; exact htru
    simp only [hcond, Bool.not_true, Bool.false_eq_true, if_false]
    exact ⟨_, _, rfl, rfl, hfields.2.1⟩
  · intro hs1
    refine ⟨hfields.2.2, ?_⟩
    intro htru
    unfold get_next_question_session updatedSession gnq_dispatch
    rw [hs1]
    have hcond : optTruthy s1.service_type = true := by rw [hfields.2.2]; exact htru
    simp only [hcond, Bool.not_true, Bool.false_eq_true, if_false]
    exact ⟨_, _, rfl, rfl, hfields.2.2⟩

/-- Witness for C10: a concrete phone correction followed by a silent call
advances straight past `gather_phone` with the stale phone value. -/
theorem stale_field_after_regression_witness :
    ∃ r s1, get_next_question_session "b1" (demoSession BookingStep.confirm_details)
        (some "no, wrong phone number") 5 = Except.ok (r, s1) ∧
      s1.current_step = BookingStep.gather_phone ∧
      s1.customer_phone = (demoSession BookingStep.confirm_details).customer_phone ∧
      ∃ r2 s2, get_next_question_session "b1" s1 none 6 = Except.ok (r2, s2) ∧
        s2.current_step = BookingStep.gather_service ∧
        s2.customer_phone = (demoSession BookingStep.confirm_details).customer_phone := by
  have hmain := stale_field_after_regression "b1" (demoSession BookingStep.confirm_details)
    "no, wrong phone number" 5 6 _ _ rfl rfl
  have hstep : ((get_next_question_session "b1" (demoSession BookingStep.confirm_details)
      (some "no, wrong phone number") 5).toOption.map (fun p => p.2.current_step)) =
      some BookingStep.gather_phone := rfl
  obtain ⟨hphone, hnext⟩ := hmain.2.1 rfl
  exact ⟨_, _, rfl, rfl, hphone, hnext rfl⟩

/-! ## Claim theorems: intent / FAQ engine -/

/-- Claim C6: an empty or whitespace-only transcript yields the `unknown`
category with confidence 0, no matched keywords, no entities, and a
non-empty clarifying response, without raising. -/
theorem analyze_empty_transcript (t : String) (cfg : Option PracticeConfig)
    (h : pyStrip t = "") :
    (analyze_transcript t cfg).intent = IntentType.unknown ∧
    (analyze_transcript t cfg).confidence = 0 ∧
    (analyze_transcript t cfg).matched_keywords = [] ∧
    (analyze_transcript t cfg).extracted_entities = [] ∧
    (analyze_transcript t cfg).suggested_response ≠ "" := by
  unfold analyze_transcript
  rw [if_pos (Or.inr h)]
  exact ⟨rfl, rfl, rfl, rfl, by decide⟩

/-- Witness for C6 at a whitespace transcript. -/
theorem analyze_empty_transcript_witness :
    pyStrip "   " = "" ∧
    ((analyze_transcript "   " none).intent = IntentType.unknown ∧
     (analyze_transcript "   " none).confidence = 0 ∧
     (analyze_transcript "   " none).matched_keywords = [] ∧
     (analyze_transcript "   " none).extracted_entities = [] ∧
     (analyze_transcript "   " none).suggested_response ≠ "") :=
  ⟨by decide, analyze_empty_transcript "   " none (by decide)⟩

/-- The tenant/confidence shape of `_match_practice_faq`'s two outcomes. -/
theorem match_practice_faq_cases (n : String) (c : PracticeConfig) :
    ((match_practice_faq n c).tenant_specific = true ∧
     (match_practice_faq n c).intent = IntentType.faq_specific ∧
     (match_practice_faq n c).confidence ≥ 0.7) ∨
    ((match_practice_faq n c).tenant_specific = false ∧
     (match_practice_faq n c).confidence = 0) := by
  unfold match_practice_faq
  dsimp only
  split_ifs with hc
  · left
    exact ⟨rfl, rfl, hc⟩
  · right
    exact ⟨rfl, rfl⟩

/-- A sample practice profile with no FAQs. -/
def demoProfile : PracticeConfig := { practice_id := "p1", name := "Bright Smiles" }

/-- A category's confidence when no keyword occurs and no pattern fires. -/
theorem calc_conf_zero (n : String) (d : IntentData)
    (hk : d.keywords.filter (fun k => strContains n (pyLower k)) = [])
    (hp : d.patterns.any (fun p => p.search n.toList) = false) :
    calculate_intent_confidence n d = (0, []) := by
  unfold calculate_intent_confidence
  rw [hk, hp]
  simp only [Bool.false_eq_true, if_false]
  split_ifs <;> norm_num

/-- The cancel category's confidence on the transcript "cancel". -/
theorem cancel_rule_conf :
    calculate_intent_confidence (normalize_text "cancel") cancel_rule =
      (0.8, ["cancel"]) := by
  unfold calculate_intent_confidence
  have hk : cancel_rule.keywords.filter
      (fun k => strContains (normalize_text "cancel") (pyLower k)) = ["cancel"] := by decide
  have hp : cancel_rule.patterns.any
      (fun p => p.search (normalize_text "cancel").toList) = true := by decide
  have hlen : cancel_rule.keywords.length = 4 := by decide
  rw [hk, hp, hlen]
  norm_num

set_option maxRecDepth 100000 in
/-- Claim C7 counterexample: with a practice profile supplied but no FAQ
matched (here: no FAQs at all), the generic result still carries
`tenant_specific = true`, so the flag does not mean "came from a
practice-specific FAQ". -/
theorem tenant_specific_counterexample :
    (analyze_transcript "cancel" (some demoProfile)).tenant_specific = true ∧
    (analyze_transcript "cancel" (some demoProfile)).intent =
      IntentType.appointment_cancel ∧
    IntentType.appointment_cancel ≠ IntentType.faq_specific := by
  have hb := calc_conf_zero (normalize_text "cancel") booking_rule (by decide) (by decide)
  have hr := calc_conf_zero (normalize_text "cancel") reschedule_rule (by decide) (by decide)
  have hh := calc_conf_zero (normalize_text "cancel") hours_rule (by decide) (by decide)
  have hi := calc_conf_zero (normalize_text "cancel") insurance_rule (by decide) (by decide)
  have hs := calc_conf_zero (normalize_text "cancel") services_rule (by decide) (by decide)
  have hl := calc_conf_zero (normalize_text "cancel") location_rule (by decide) (by decide)
  have he := calc_conf_zero (normalize_text "cancel") emergency_rule (by decide) (by decide)
  have hpay := calc_conf_zero (normalize_text "cancel") payment_rule (by decide) (by decide)
  have hc := cancel_rule_conf
  refine ⟨rfl, ?_, by decide⟩
  unfold analyze_transcript
  rw [if_neg (by decide)]
  simp only [demoProfile]
  simp only [generic_best, intent_patterns, List.foldl, hb, hc, hr, hh, hi, hs, hl, he,
    hpay]
  norm_num

/-- Claim C7 as amended: `tenant_specific` is true iff a practice profile
was supplied and the transcript was non-empty; on the generic path it
records profile presence (the profile may have personalized the response),
not that a practice FAQ produced the result. -/
theorem tenant_specific_iff_profile (t : String) (cfg : Option PracticeConfig) :
    (analyze_transcript t cfg).tenant_specific = true ↔
      (pyStrip t ≠ "" ∧ cfg.isSome = true) := by
  unfold analyze_transcript
  by_cases hemp : t = "" ∨ pyStrip t = ""
  · rw [if_pos hemp]
    constructor
    · intro h
      exact absurd h (by simp)
    · intro hcon
      rcases hemp with rfl | hstrip
      · exact absurd rfl hcon.1
      · exact absurd hstrip hcon.1
  · rw [if_neg hemp]
    push_neg at hemp
    cases cfg with
    | none => simp [hemp.2]
    | some c =>
      cases hfq : c.faq_json with
      | none => simp [hfq, hemp.2]
      | some faqs =>
        by_cases hne : faqs = []
        · simp [hfq, hne, hemp.2]
        · rcases match_practice_faq_cases (normalize_text t) c with ⟨ht, -, hc70⟩ |
            ⟨ht, hc0⟩
          · simp [hfq, hne, hc70, ht, hemp.2]
          · have hnot : ¬ ((match_practice_faq (normalize_text t) c).confidence ≥ 0.7) := by
              rw [hc0]; norm_num
            simp [hfq, hne, hnot, hemp.2]

/-- Does a given transcript/profile pair miss the FAQ short circuit?  True
when no profile or no (non-empty) FAQ mapping is supplied, or when the best
FAQ similarity stays below 0.7. -/
def faq_not_triggered (t : String) (cfg : Option PracticeConfig) : Bool :=
  match cfg with
  | none => true
  | some c =>
    match c.faq_json with
    | none => true
    | some faqs =>
      if faqs ≠ [] then
        decide (¬ ((match_practice_faq (normalize_text t) c).confidence ≥ 0.7))
      else true

/-- On a non-empty transcript that misses the FAQ short circuit,
`analyze_transcript` returns exactly the generic-classification result. -/
theorem analyze_generic_path (t : String) (cfg : Option PracticeConfig)
    (h1 : pyStrip t ≠ "") (h2 : faq_not_triggered t cfg = true) :
    analyze_transcript t cfg =
      { intent := (generic_best (normalize_text t)).1,
        confidence := (generic_best (normalize_text t)).2.1,
        matched_keywords := (generic_best (normalize_text t)).2.2,
        extracted_entities :=
          extract_entities (normalize_text t) (generic_best (normalize_text t)).1,
        suggested_response := generate_response (generic_best (normalize_text t)).1
          (extract_entities (normalize_text t) (generic_best (normalize_text t)).1) cfg,
        tenant_specific := cfg.isSome } := by
  unfold analyze_transcript
  rw [if_neg (fun hor => hor.elim (fun he => h1 (by rw [he]; rfl)) h1)]
  unfold faq_not_triggered at h2
  cases cfg with
  | none => rfl
  | some c =>
    dsimp only at h2
    cases hfq : c.faq_json with
    | none => simp [hfq]
    | some faqs =>
      rw [hfq] at h2
      dsimp only at h2
      by_cases hne : faqs = []
      · simp [hfq, hne]
      · rw [if_pos hne] at h2
        have hnot := of_decide_eq_true h2
        simp [hfq, hne, hnot]

/-- Claim C5 as amended: on the generic path every category's confidence is
`max(keyword_fraction*0.6 + pattern_score*0.4, pattern_score)`; the result
dominates every category's confidence; ties among iterated categories keep
the earlier one, and the winner is the first category whose confidence
strictly exceeds everything before it; when every category scores 0, the
initial accumulator — category `unknown` with confidence 0.0 — is returned
rather than the first declared category.  The result is a pure function of
the transcript. -/
theorem generic_classification_argmax (t : String) (cfg : Option PracticeConfig)
    (h1 : pyStrip t ≠ "") (h2 : faq_not_triggered t cfg = true) :
    (∀ d : IntentData,
      (calculate_intent_confidence (normalize_text t) d).1 =
        max (((d.keywords.filter
                (fun k => strContains (normalize_text t) (pyLower k))).length : ℚ) /
              (d.keywords.length : ℚ) * 0.6 +
             (if d.patterns.any (fun p => p.search (normalize_text t).toList) then
                (0.8 : ℚ) else 0) * 0.4)
            (if d.patterns.any (fun p => p.search (normalize_text t).toList) then
              (0.8 : ℚ) else 0)) ∧
    (∀ e ∈ intent_patterns,
      (calculate_intent_confidence (normalize_text t) e.2).1 ≤
        (analyze_transcript t cfg).confidence) ∧
    (((analyze_transcript t cfg).confidence = 0 ∧
      (analyze_transcript t cfg).intent = IntentType.unknown ∧
      (analyze_transcript t cfg).matched_keywords = []) ∨
     (∃ l₁ e l₂, intent_patterns = l₁ ++ e :: l₂ ∧
        (analyze_transcript t cfg).intent = e.1 ∧
        (analyze_transcript t cfg).confidence =
          (calculate_intent_confidence (normalize_text t) e.2).1 ∧
        (analyze_transcript t cfg).matched_keywords =
          (calculate_intent_confidence (normalize_text t) e.2).2 ∧
        0 < (analyze_transcript t cfg).confidence ∧
        (∀ e' ∈ l₁, (calculate_intent_confidence (normalize_text t) e'.2).1 <
          (analyze_transcript t cfg).confidence) ∧
        (∀ e' ∈ l₂, (calculate_intent_confidence (normalize_text t) e'.2).1 ≤
          (analyze_transcript t cfg).confidence))) := by
  have hformula : ∀ d : IntentData,
      (calculate_intent_confidence (normalize_text t) d).1 =
        max (((d.keywords.filter
                (fun k => strContains (normalize_text t) (pyLower k))).length : ℚ) /
              (d.keywords.length : ℚ) * 0.6 +
             (if d.patterns.any (fun p => p.search (normalize_text t).toList) then
                (0.8 : ℚ) else 0) * 0.4)
            (if d.patterns.any (fun p => p.search (normalize_text t).toList) then
              (0.8 : ℚ) else 0) := by
    intro d
    unfold calculate_intent_confidence
    dsimp only
    by_cases hl : d.keywords.length > 0
    · rw [if_pos hl]
    · rw [if_neg hl]
      have h0 : d.keywords = [] := List.length_eq_zero.mp (by omega)
      rw [h0]
      norm_num
  have hpath := analyze_generic_path t cfg h1 h2
  have hgb : generic_best (normalize_text t) =
      intent_patterns.foldl
        (fun acc x =>
          if (fun p : IntentType × IntentData =>
                (calculate_intent_confidence (normalize_text t) p.2).1) x >
              (fun b : IntentType × ℚ × List String => b.2.1) acc
          then (fun p : IntentType × IntentData =>
            (p.1, (calculate_intent_confidence (normalize_text t) p.2).1,
              (calculate_intent_confidence (normalize_text t) p.2).2)) x
          else acc)
        (IntentType.unknown, (0 : ℚ), ([] : List String)) := rfl
  have hge := foldl_strict_best_ge
    (fun p : IntentType × IntentData =>
      (calculate_intent_confidence (normalize_text t) p.2).1)
    (fun p => (p.1, (calculate_intent_confidence (normalize_text t) p.2).1,
      (calculate_intent_confidence (normalize_text t) p.2).2))
    (fun b => b.2.1) (fun _ => rfl) intent_patterns
    (IntentType.unknown, (0 : ℚ), ([] : List String))
  have hspec := foldl_strict_best
    (fun p : IntentType × IntentData =>
      (calculate_intent_confidence (normalize_text t) p.2).1)
    (fun p => (p.1, (calculate_intent_confidence (normalize_text t) p.2).1,
      (calculate_intent_confidence (normalize_text t) p.2).2))
    (fun b => b.2.1) (fun _ => rfl) intent_patterns
    (IntentType.unknown, (0 : ℚ), ([] : List String))
  refine ⟨hformula, ?_, ?_⟩
  · intro e he
    simp only [hpath, hgb]
    exact hge e he
  · rcases hspec with ⟨heq, -⟩ | ⟨l₁, e, l₂, hsplit, heq, hgt, hbefore, hafter⟩
    · left
      have hval : generic_best (normalize_text t) =
          (IntentType.unknown, (0 : ℚ), ([] : List String)) := hgb.trans heq
      simp [hpath, hval]
    · right
      have hval : generic_best (normalize_text t) =
          (e.1, (calculate_intent_confidence (normalize_text t) e.2).1,
            (calculate_intent_confidence (normalize_text t) e.2).2) := hgb.trans heq
      refine ⟨l₁, e, l₂, hsplit, ?_, ?_, ?_, ?_, ?_, ?_⟩
      · simp only [hpath, hval]
      · simp only [hpath, hval]
      · simp only [hpath, hval]
      · simp only [hpath, hval]
        exact hgt
      · intro e' he'
        simp only [hpath, hval]
        exact hbefore e' he'
      · intro e' he'
        simp only [hpath, hval]
        exact hafter e' he'

/-- Claim C5 counterexample: on "zzz" every declared category scores 0 — a
nine-way tie — yet the result is category `unknown` (the fold's initial
accumulator), not the first declared category (appointment booking), so a
tie is not always "resolved to the first category in the declared
iteration order". -/
theorem generic_tie_zero_counterexample :
    (∀ e ∈ intent_patterns,
      (calculate_intent_confidence (normalize_text "zzz") e.2).1 = 0) ∧
    (analyze_transcript "zzz" none).intent = IntentType.unknown ∧
    (analyze_transcript "zzz" none).confidence = 0 ∧
    intent_patterns.head?.map (fun e => e.1) = some IntentType.appointment_booking ∧
    IntentType.unknown ≠ IntentType.appointment_booking := by
  have hb := calc_conf_zero (normalize_text "zzz") booking_rule (by decide) (by decide)
  have hc := calc_conf_zero (normalize_text "zzz") cancel_rule (by decide) (by decide)
  have hr := calc_conf_zero (normalize_text "zzz") reschedule_rule (by decide) (by decide)
  have hh := calc_conf_zero (normalize_text "zzz") hours_rule (by decide) (by decide)
  have hi := calc_conf_zero (normalize_text "zzz") insurance_rule (by decide) (by decide)
  have hs := calc_conf_zero (normalize_text "zzz") services_rule (by decide) (by decide)
  have hl := calc_conf_zero (normalize_text "zzz") location_rule (by decide) (by decide)
  have he := calc_conf_zero (normalize_text "zzz") emergency_rule (by decide) (by decide)
  have hpay := calc_conf_zero (normalize_text "zzz") payment_rule (by decide) (by decide)
  have hall : ∀ e ∈ intent_patterns,
      (calculate_intent_confidence (normalize_text "zzz") e.2).1 = 0 := by
    intro e hmem
    fin_cases hmem <;>
      simp only [hb, hc, hr, hh, hi, hs, hl, he, hpay]
  have hbest : generic_best (normalize_text "zzz") =
      (IntentType.unknown, (0 : ℚ), ([] : List String)) := by
    unfold generic_best
    simp only [intent_patterns, List.foldl, hb, hc, hr, hh, hi, hs, hl, he, hpay]
    norm_num
  have hpath := analyze_generic_path "zzz" none (by decide) rfl
  exact ⟨hall, by simp [hpath, hbest], by simp [hpath, hbest], by decide, by decide⟩

/-- Witness for C5's amended claim on the transcript "cancel" with no
practice profile. -/
theorem generic_classification_argmax_witness :
    pyStrip "cancel" ≠ "" ∧ faq_not_triggered "cancel" none = true ∧
    ((∀ d : IntentData,
      (calculate_intent_confidence (normalize_text "cancel") d).1 =
        max (((d.keywords.filter
                (fun k => strContains (normalize_text "cancel") (pyLower k))).length : ℚ) /
              (d.keywords.length : ℚ) * 0.6 +
             (if d.patterns.any (fun p => p.search (normalize_text "cancel").toList) then
                (0.8 : ℚ) else 0) * 0.4)
            (if d.patterns.any (fun p => p.search (normalize_text "cancel").toList) then
              (0.8 : ℚ) else 0)) ∧
    (∀ e ∈ intent_patterns,
      (calculate_intent_confidence (normalize_text "cancel") e.2).1 ≤
        (analyze_transcript "cancel" none).confidence) ∧
    (((analyze_transcript "cancel" none).confidence = 0 ∧
      (analyze_transcript "cancel" none).intent = IntentType.unknown ∧
      (analyze_transcript "cancel" none).matched_keywords = []) ∨
     (∃ l₁ e l₂, intent_patterns = l₁ ++ e :: l₂ ∧
        (analyze_transcript "cancel" none).intent = e.1 ∧
        (analyze_transcript "cancel" none).confidence =
          (calculate_intent_confidence (normalize_text "cancel") e.2).1 ∧
        (analyze_transcript "cancel" none).matched_keywords =
          (calculate_intent_confidence (normalize_text "cancel") e.2).2 ∧
        0 < (analyze_transcript "cancel" none).confidence ∧
        (∀ e' ∈ l₁, (calculate_intent_confidence (normalize_text "cancel") e'.2).1 <
          (analyze_transcript "cancel" none).confidence) ∧
        (∀ e' ∈ l₂, (calculate_intent_confidence (normalize_text "cancel") e'.2).1 ≤
          (analyze_transcript "cancel" none).confidence)))) :=
  ⟨by decide, rfl, generic_classification_argmax "cancel" none (by decide) rfl⟩

/-- A sample practice profile with two FAQs: one whose question normalizes
to the empty string, and one ordinary greeting question. -/
def faqDemoCfg : PracticeConfig :=
  { practice_id := "p1", name := "Bright Smiles",
    faq_json := some [("?", "We are open!"), ("hello, there!!", "Hi!")] }

/-- Claim C4 counterexample: the transcript " " normalizes to the same
string as the stored FAQ question "?" (both normalize to ""), yet
`analyze_transcript` returns the unknown/0.0 result of the empty-input
guard instead of the FAQ result, because the guard fires before FAQ
matching is reached. -/
theorem faq_exact_match_whitespace_counterexample :
    normalize_text " " = normalize_text "?" ∧
    ("?", "We are open!") ∈ faqDemoCfg.faq_json.getD [] ∧
    (analyze_transcript " " (some faqDemoCfg)).intent = IntentType.unknown ∧
    (analyze_transcript " " (some faqDemoCfg)).confidence = 0 ∧
    (analyze_transcript " " (some faqDemoCfg)).tenant_specific = false ∧
    IntentType.unknown ≠ IntentType.faq_specific := by
  have hres : analyze_transcript " " (some faqDemoCfg) =
      { intent := IntentType.unknown, confidence := 0, matched_keywords := [],
        extracted_entities := [],
        suggested_response := "I didn" ++ apo ++
          "t catch that. Could you please repeat your question?" } := by
    unfold analyze_transcript
    rw [if_pos (Or.inr (by decide))]
  exact ⟨by decide, by decide, by rw [hres], by rw [hres], by rw [hres], by decide⟩

/-- If some FAQ question reaches similarity 1 against the (normalized)
transcript, `_match_practice_faq` returns the FAQ result: confidence 1,
tenant-specific, and answer/question of a stored FAQ whose similarity
is 1. -/
theorem match_practice_faq_exact {n : String} {c : PracticeConfig}
    {faqs : List (String × String)} (hfaq : c.faq_json = some faqs)
    {q₀ a₀ : String} (hmem : (q₀, a₀) ∈ faqs)
    (hsim : faq_similarity n q₀ = 1) :
    (match_practice_faq n c).intent = IntentType.faq_specific ∧
    (match_practice_faq n c).confidence = 1 ∧
    (match_practice_faq n c).tenant_specific = true ∧
    ∃ qa, qa ∈ faqs ∧ faq_similarity n qa.1 = 1 ∧
      (match_practice_faq n c).suggested_response = qa.2 ∧
      (match_practice_faq n c).faq_matched = some qa.1 := by
  rcases foldl_strict_best (fun qa : String × String => faq_similarity n qa.1)
      (fun qa => (qa.1, faq_similarity n qa.1, qa.2))
      (fun b : String × ℚ × String => b.2.1) (fun _ => rfl) faqs ("", (0 : ℚ), "")
    with ⟨heq, hall⟩ | ⟨l₁, e, l₂, hsplit, heq, hgt, hbefore, hafter⟩
  · have h0 := hall (q₀, a₀) hmem
    dsimp only at h0
    rw [hsim] at h0
    norm_num at h0
  · have hge : (1 : ℚ) ≤ faq_similarity n e.1 := by
      rw [hsplit] at hmem
      rcases List.mem_append.mp hmem with h | h
      · have hlt := hbefore _ h
        dsimp only at hlt
        rw [hsim] at hlt
        exact le_of_lt hlt
      · rcases List.mem_cons.mp h with h2 | h2
        · rw [← h2]
          dsimp only
          rw [hsim]
        · have hle := hafter _ h2
          dsimp only at hle
          rw [hsim] at hle
          exact hle
    have hsime : faq_similarity n e.1 = 1 :=
      le_antisymm (faq_similarity_le_one n e.1) hge
    have hfold : faqs.foldl
        (fun best qa =>
          let sim := faq_similarity n qa.1
          if sim > best.2.1 then (qa.1, sim, qa.2) else best)
        (("", (0 : ℚ), "") : String × ℚ × String) =
        (e.1, faq_similarity n e.1, e.2) := heq
    have hme : e ∈ faqs := by
      rw [hsplit]
      exact List.mem_append_right _ (List.mem_cons_self _ _)
    unfold match_practice_faq
    rw [hfaq]
    simp only [Option.getD_some]
    rw [hfold]
    rw [if_pos (by rw [hsime]; norm_num)]
    exact ⟨rfl, hsime, rfl, e, hme, hsime, rfl, rfl⟩

/-- Claim C4 as amended: for a non-whitespace transcript whose normalized
form equals the normalized form of a stored FAQ question, the best FAQ
similarity is 1.0 and `analyze_transcript` returns the FAQ result
(category faq_specific, confidence 1.0, tenant_specific true), with the
response the stored answer of a (first-best, similarity-1) FAQ entry —
not necessarily the entry that witnessed the exact match.  Whitespace
transcripts are excluded: they are intercepted by the empty-input
guard. -/
theorem faq_exact_match_wins (t : String) (c : PracticeConfig)
    (faqs : List (String × String)) (q₀ a₀ : String)
    (h1 : pyStrip t ≠ "") (hfaq : c.faq_json = some faqs)
    (hmem : (q₀, a₀) ∈ faqs) (hnorm : normalize_text q₀ = normalize_text t) :
    (analyze_transcript t (some c)).intent = IntentType.faq_specific ∧
    (analyze_transcript t (some c)).confidence = 1 ∧
    (analyze_transcript t (some c)).tenant_specific = true ∧
    ∃ qa, qa ∈ faqs ∧ faq_similarity (normalize_text t) qa.1 = 1 ∧
      (analyze_transcript t (some c)).suggested_response = qa.2 ∧
      (analyze_transcript t (some c)).faq_matched = some qa.1 := by
  have hw : normalize_text t = "" ∨ splitWs (normalize_text t).toList ≠ [] := by
    by_cases h : normalize_text t = ""
    · exact Or.inl h
    · exact Or.inr (normalize_words_ne_nil h)
  have hsim : faq_similarity (normalize_text t) q₀ = 1 :=
    faq_similarity_eq_one hnorm hw
  have hexact := match_practice_faq_exact hfaq hmem hsim
  have hne : faqs ≠ [] := by
    intro h
    rw [h] at hmem
    exact absurd hmem (List.not_mem_nil _)
  have hpath : analyze_transcript t (some c) =
      match_practice_faq (normalize_text t) c := by
    unfold analyze_transcript
    rw [if_neg (fun hor => hor.elim (fun he => h1 (by rw [he]; rfl)) h1)]
    dsimp only
    rw [hfaq]
    dsimp only
    rw [if_pos hne]
    rw [if_pos (by rw [hexact.2.1]; norm_num)]
  rw [hpath]
  exact hexact

/-- Witness for C4's amended claim: the transcript "Hello there" matches
the stored FAQ question "hello, there!!" exactly after normalization. -/
theorem faq_exact_match_wins_witness :
    pyStrip "Hello there" ≠ "" ∧
    faqDemoCfg.faq_json = some [("?", "We are open!"), ("hello, there!!", "Hi!")] ∧
    ("hello, there!!", "Hi!") ∈ [("?", "We are open!"), ("hello, there!!", "Hi!")] ∧
    normalize_text "hello, there!!" = normalize_text "Hello there" ∧
    ((analyze_transcript "Hello there" (some faqDemoCfg)).intent =
        IntentType.faq_specific ∧
     (analyze_transcript "Hello there" (some faqDemoCfg)).confidence = 1 ∧
     (analyze_transcript "Hello there" (some faqDemoCfg)).tenant_specific = true ∧
     ∃ qa, qa ∈ [("?", "We are open!"), ("hello, there!!", "Hi!")] ∧
       faq_similarity (normalize_text "Hello there") qa.1 = 1 ∧
       (analyze_transcript "Hello there" (some faqDemoCfg)).suggested_response =
         qa.2 ∧
       (analyze_transcript "Hello there" (some faqDemoCfg)).faq_matched =
         some qa.1) :=
  ⟨by decide, rfl, by decide, by decide,
    faq_exact_match_wins "Hello there" faqDemoCfg
      [("?", "We are open!"), ("hello, there!!", "Hi!")] "hello, there!!" "Hi!"
      (by decide) rfl (by decide) (by decide)⟩
